import Mathlib

/-!
Verification development for the stars repository, a WebGPU starfield
renderer for a fixed Tokyo observer.

The TypeScript and WGSL sources are shallowly embedded in Lean 4:

- the streaming star loader (src/lib/webgpu/starfield.ts, loadStarData)
  is modelled over lists of bytes with explicit state passing;
- the real-valued coordinate math (src/lib/astronomy.ts,
  src/lib/projection.ts, the WGSL vertex shaders, src/lib/webgpu/skyline.ts)
  is modelled over the real numbers, with JavaScript remainder, rounding
  and truncation made explicit;
- the constellation-data error path (loadConstellationData) is modelled
  with Except for the thrown/caught exception.
-/

open Real

namespace Stars

/-!
Part 1: streaming star loader.
Source: src/lib/webgpu/starfield.ts, StarfieldRenderer.loadStarData
(lines 266 to 320) and the constant BYTES_PER_STAR from
src/constants/rendering.ts.
-/

/-- Bytes per star record, four 32-bit floats (src/constants/rendering.ts). -/
def BYTES_PER_STAR : Nat := 16

/-- State of the streaming loop of loadStarData: the sequence of
device.queue.writeBuffer calls issued so far (offset and data of each),
the running flushed byte offset (receivedBytes in the source) and the
retained unaligned remainder (pendingBuffer in the source). -/
structure LoaderState (α : Type) where
  writes : List (Nat × List α)
  receivedBytes : Nat
  pending : List α
deriving DecidableEq

/-- Loader state before the first chunk: no writes, offset 0, empty
pending buffer (pendingBuffer = new Uint8Array(0)). -/
def initLoader (α : Type) : LoaderState α := ⟨[], 0, []⟩

/-- One iteration of the while loop of loadStarData on a received chunk:
concatenate the previous remainder with the chunk, compute the largest
16-byte aligned length, flush exactly that aligned slice at offset
receivedBytes when it is positive, and retain the rest as the new
pending remainder. -/
def processChunk {α : Type} (s : LoaderState α) (chunk : List α) : LoaderState α :=
  let combined := s.pending ++ chunk
  let alignedBytes := combined.length / BYTES_PER_STAR * BYTES_PER_STAR
  if 0 < alignedBytes then
    { writes := s.writes ++ [(s.receivedBytes, combined.take alignedBytes)]
      receivedBytes := s.receivedBytes + alignedBytes
      pending := combined.drop alignedBytes }
  else
    { s with pending := combined }

/-- Math.round((receivedBytes / totalBytes) * 100) for natural numbers:
round half up of a nonnegative rational, computed exactly as
floor((200 * r + t) / (2 * t)). -/
def progressPercent (receivedBytes totalBytes : Nat) : Nat :=
  (200 * receivedBytes + totalBytes) / (2 * totalBytes)

/-- One loop iteration together with its progress report: the onProgress
callback fires exactly when the flushed offset grew, that is when
alignedBytes was positive. -/
def loaderStep {α : Type} (totalBytes : Nat) (acc : LoaderState α × List Nat)
    (chunk : List α) : LoaderState α × List Nat :=
  let s := processChunk acc.1 chunk
  (s, if acc.1.receivedBytes < s.receivedBytes
      then acc.2 ++ [progressPercent s.receivedBytes totalBytes]
      else acc.2)

/-- The whole streaming read of loadStarData over a chunk sequence:
fold the loop over the chunks, then the source unconditionally reports
onProgress(100, loadedStarCount) after the loop. Returns the final
loader state and the full list of reported progress values. -/
def loadStarData {α : Type} (totalBytes : Nat) (chunks : List (List α)) :
    LoaderState α × List Nat :=
  let r := chunks.foldl (loaderStep totalBytes) (initLoader α, [])
  (r.1, r.2 ++ [100])

/-- The content of the destination GPU buffer as flushed so far: the
concatenation of the data of all writeBuffer calls. -/
def flushedData {α : Type} (s : LoaderState α) : List α :=
  (s.writes.map Prod.snd).flatten

/-- The writeBuffer calls are contiguous starting at a given offset: each
write lands exactly where the previous one ended, so the concatenation of
the write data is the destination buffer content in order. -/
def WritesContiguous {α : Type} : Nat → List (Nat × List α) → Prop
  | _, [] => True
  | off, w :: rest => w.1 = off ∧ WritesContiguous (off + w.2.length) rest

/-- The loader invariant after consuming a stream so far: the flushed
bytes followed by the pending remainder reproduce the stream, the flushed
offset equals the flushed length and is 16-byte aligned, the remainder is
shorter than one record, and the writes are contiguous from offset 0. -/
def LoaderInv {α : Type} (stream : List α) (s : LoaderState α) : Prop :=
  flushedData s ++ s.pending = stream ∧
  s.receivedBytes = (flushedData s).length ∧
  s.receivedBytes % 16 = 0 ∧
  s.pending.length < 16 ∧
  WritesContiguous 0 s.writes

/-!
Part 2: 3D vector and camera math.
Sources: src/lib/projection.ts, the updateUniforms method of
src/lib/webgpu/starfield.ts, src/constants/camera.ts, and the WGSL
vertex shaders src/lib/webgpu/shaders/star.wgsl.ts and
src/lib/webgpu/shaders/constellation.wgsl.ts.  All float arithmetic is
modelled over the real numbers.
-/

/-- A 3-component vector (the Vec3 tuples of projection.ts and the vec3f
values of the shaders). -/
@[ext]
structure Vec3 where
  x : ℝ
  y : ℝ
  z : ℝ

/-- A 4-component vector (vec4f of the shaders). -/
@[ext]
structure Vec4 where
  x : ℝ
  y : ℝ
  z : ℝ
  w : ℝ

/-- horizontalToCartesian: north = +Z, east = +X, up = +Y. -/
noncomputable def horizontalToCartesian (azimuth altitude : ℝ) : Vec3 :=
  ⟨Real.cos altitude * Real.sin azimuth,
   Real.sin altitude,
   Real.cos altitude * Real.cos azimuth⟩

/-- Vector length, Math.hypot(v0, v1, v2). -/
noncomputable def length (v : Vec3) : ℝ :=
  Real.sqrt (v.x ^ 2 + v.y ^ 2 + v.z ^ 2)

/-- Vector normalization; the source returns the zero vector when the
length is zero. -/
noncomputable def normalize (v : Vec3) : Vec3 :=
  if length v = 0 then ⟨0, 0, 0⟩
  else ⟨v.x / length v, v.y / length v, v.z / length v⟩

/-- Dot product. -/
noncomputable def dot (a b : Vec3) : ℝ :=
  a.x * b.x + a.y * b.y + a.z * b.z

/-- Cross product. -/
noncomputable def cross (a b : Vec3) : Vec3 :=
  ⟨a.y * b.z - a.z * b.y,
   a.z * b.x - a.x * b.z,
   a.x * b.y - a.y * b.x⟩

/-- Vector subtraction. -/
noncomputable def subtract (a b : Vec3) : Vec3 :=
  ⟨a.x - b.x, a.y - b.y, a.z - b.z⟩

/-- MIN_FOV, 30 degrees (src/constants/camera.ts). -/
noncomputable def MIN_FOV : ℝ := π / 6

/-- MAX_FOV, 120 degrees (src/constants/camera.ts). -/
noncomputable def MAX_FOV : ℝ := π * 2 / 3

/-- MIN_ALTITUDE, slightly above straight down (src/constants/camera.ts). -/
noncomputable def MIN_ALTITUDE : ℝ := -(π / 2) + 0.1

/-- MAX_ALTITUDE, slightly below the zenith (src/constants/camera.ts). -/
noncomputable def MAX_ALTITUDE : ℝ := π / 2 - 0.1

/-- Camera parameters of projection.ts (CameraParams); updateUniforms of
starfield.ts uses the same azimuth/altitude/fov together with the canvas
aspect ratio. -/
structure CameraParams where
  azimuth : ℝ
  altitude : ℝ
  fov : ℝ
  aspect : ℝ

/-- The fixed world up vector. -/
noncomputable def worldUp : Vec3 := ⟨0, 1, 0⟩

/-- The camera view direction, normalize(horizontalToCartesian(az, alt)),
identical in projection.ts and updateUniforms. -/
noncomputable def cameraViewDir (c : CameraParams) : Vec3 :=
  normalize (horizontalToCartesian c.azimuth c.altitude)

/-- The camera right vector: cross(worldUp, viewDir), replaced by (1,0,0)
when nearly degenerate (looking almost straight up or down), else
normalized. -/
noncomputable def cameraRight (c : CameraParams) : Vec3 :=
  let right := cross worldUp (cameraViewDir c)
  if length right < 0.001 then ⟨1, 0, 0⟩ else normalize right

/-- The camera up vector, normalize(cross(viewDir, right)). -/
noncomputable def cameraUp (c : CameraParams) : Vec3 :=
  normalize (cross (cameraViewDir c) (cameraRight c))

/-- calculateCameraOffset of updateUniforms (and the fovRatio computation
of projectToScreen, which multiplies in the other order): the camera dolly
grows linearly with fov, clamped to [0, 1] times the maximal offset.  The
numeric value of the constant MAX_CAMERA_OFFSET is not part of this
snapshot (only its uses are), so the maximal offset stays a parameter. -/
noncomputable def calculateCameraOffset (fov minFov maxFov maxOffset : ℝ) : ℝ :=
  maxOffset * max 0 (min 1 ((fov - minFov) / (maxFov - minFov)))

/-- diagonalFactor = sqrt(1 + aspect^2) from updateUniforms. -/
noncomputable def diagonalFactor (aspect : ℝ) : ℝ :=
  Real.sqrt (1 + aspect * aspect)

/-- The uniform values consumed by the star shader, as written by
updateUniforms: view basis, projection scale 1/tan(fov/2), aspect, and
cullRadius = fov * 0.5 * diagonalFactor * 1.1. -/
structure StarUniforms where
  viewDir : Vec3
  viewRight : Vec3
  viewUp : Vec3
  projScale : ℝ
  aspect : ℝ
  cullRadius : ℝ

noncomputable def starUniforms (c : CameraParams) : StarUniforms :=
  { viewDir := cameraViewDir c
    viewRight := cameraRight c
    viewUp := cameraUp c
    projScale := 1 / Real.tan (c.fov * 0.5)
    aspect := c.aspect
    cullRadius := c.fov * 0.5 * diagonalFactor c.aspect * 1.1 }

/-- WGSL clamp(e, low, high) = min(max(e, low), high). -/
noncomputable def wgslClamp (e low high : ℝ) : ℝ := min (max e low) high

/-- horizontalToScreen of star.wgsl.ts: cull stars behind the view
direction (dot < 0) or with angular distance beyond cullRadius by
returning the sentinel z = -2; otherwise perspective-project and return
z = 0.5. -/
noncomputable def horizontalToScreenStar (u : StarUniforms) (az alt : ℝ) : Vec4 :=
  let starDir := horizontalToCartesian az alt
  let dotProduct := dot starDir u.viewDir
  if dotProduct < 0 then ⟨0, 0, -2, 1⟩
  else
    let angularDist := Real.arccos (wgslClamp dotProduct (-1) 1)
    if angularDist > u.cullRadius then ⟨0, 0, -2, 1⟩
    else
      ⟨dot starDir u.viewRight / dotProduct * u.projScale / u.aspect,
       dot starDir u.viewUp / dotProduct * u.projScale,
       0.5, 1⟩

/-- The clip-space z written by vertexMain of star.wgsl.ts for a star whose
horizontal coordinates are (az, alt): stars with alt < 0 get the off-screen
sentinel z = -2, every other star gets the z of horizontalToScreen.  The
star is excluded from rendering exactly when this z is negative. -/
noncomputable def starVertexPositionZ (u : StarUniforms) (az alt : ℝ) : ℝ :=
  if alt < 0 then -2 else (horizontalToScreenStar u az alt).z

/-- Screen position produced by projectToScreen of projection.ts. -/
structure ScreenPosition where
  x : ℝ
  y : ℝ
  visible : Prop

/-- cameraPos of projectToScreen: the camera backed away from the origin
along the view direction by the fov-dependent dolly offset. -/
noncomputable def projCameraPos (maxCameraOffset : ℝ) (camera : CameraParams) : Vec3 :=
  let viewDir := cameraViewDir camera
  let cameraOffset := calculateCameraOffset camera.fov MIN_FOV MAX_FOV maxCameraOffset
  ⟨-viewDir.x * cameraOffset, -viewDir.y * cameraOffset, -viewDir.z * cameraOffset⟩

/-- toTargetDir of projectToScreen: the componentwise-normalized vector
from the camera position to the target on the unit sphere. -/
noncomputable def toTargetDirOf (maxCameraOffset targetAz targetAlt : ℝ)
    (camera : CameraParams) : Vec3 :=
  let targetPos := horizontalToCartesian targetAz targetAlt
  let toTarget := subtract targetPos (projCameraPos maxCameraOffset camera)
  ⟨toTarget.x / length toTarget, toTarget.y / length toTarget,
   toTarget.z / length toTarget⟩

/-- projectToScreen of projection.ts (lines 104 to 179): targets with
dot(toTargetDir, viewDir) <= 0 are immediately not visible; otherwise the
target is perspective-projected to a 0..1 screen fraction and visibility
is the 10 percent margin rectangle test. -/
noncomputable def projectToScreen (maxCameraOffset targetAz targetAlt : ℝ)
    (camera : CameraParams) : ScreenPosition :=
  let toTargetDir := toTargetDirOf maxCameraOffset targetAz targetAlt camera
  let dotProduct := dot toTargetDir (cameraViewDir camera)
  if dotProduct ≤ 0 then ⟨0, 0, False⟩
  else
    let x := dot toTargetDir (cameraRight camera)
    let y := dot toTargetDir (cameraUp camera)
    let projScale := 1 / Real.tan (camera.fov / 2)
    let screenX := x / dotProduct * projScale / camera.aspect
    let screenY := y / dotProduct * projScale
    let normalizedX := (screenX + 1) / 2
    let normalizedY := (1 - screenY) / 2
    ⟨normalizedX, normalizedY,
     normalizedX ≥ -0.1 ∧ normalizedX ≤ 1 + 0.1 ∧
     normalizedY ≥ -0.1 ∧ normalizedY ≤ 1 + 0.1⟩

/-!
Part 3: constellation line shader.
Source: src/lib/webgpu/shaders/constellation.wgsl.ts, in particular
horizontalToScreen (lines 84 to 132) and the segment-dropping logic of
vertexMain (lines 152 to 184).
-/

/-- The uniform block of the constellation line shader. -/
structure ConstUniforms where
  azimuth : ℝ
  altitude : ℝ
  fov : ℝ
  aspect : ℝ
  latitude : ℝ
  lst : ℝ
  lineWidth : ℝ
  lineAlpha : ℝ
  minFov : ℝ
  maxFov : ℝ
  maxCameraOffset : ℝ

/-- horizontalToScreen of constellation.wgsl.ts: camera-offset aware
projection with the same behind-camera (dot < 0) and cull-radius tests as
the star shader, returning the off-screen sentinel z = -2 when culled. -/
noncomputable def horizontalToScreenConst
    (az alt viewAz viewAlt fov aspect minFov maxFov maxCameraOffset : ℝ) : Vec4 :=
  let pointPos := horizontalToCartesian az alt
  let viewDir := horizontalToCartesian viewAz viewAlt
  let cameraOffset := calculateCameraOffset fov minFov maxFov maxCameraOffset
  let cameraPos : Vec3 := ⟨-viewDir.x * cameraOffset, -viewDir.y * cameraOffset,
    -viewDir.z * cameraOffset⟩
  let toPoint := subtract pointPos cameraPos
  let toPointDist := length toPoint
  let toPointDir : Vec3 := ⟨toPoint.x / toPointDist, toPoint.y / toPointDist,
    toPoint.z / toPointDist⟩
  let right0 := cross worldUp viewDir
  let right := if length right0 < 0.001 then (⟨1, 0, 0⟩ : Vec3) else normalize right0
  let up := normalize (cross viewDir right)
  let dotProduct := dot toPointDir viewDir
  if dotProduct < 0 then ⟨0, 0, -2, 1⟩
  else
    let angularDist := Real.arccos (wgslClamp dotProduct (-1) 1)
    let cullRadius := fov * 0.5 * diagonalFactor aspect * 1.1
    if angularDist > cullRadius then ⟨0, 0, -2, 1⟩
    else
      ⟨dot toPointDir right / dotProduct * (1 / Real.tan (fov * 0.5)) / aspect,
       dot toPointDir up / dotProduct * (1 / Real.tan (fov * 0.5)),
       0.5, 1⟩

/-- The clip z written by vertexMain of constellation.wgsl.ts for the quad
of one line segment whose endpoints have horizontal coordinates
(az1, alt1) and (az2, alt2): -2 (whole segment dropped) when BOTH
endpoints are below altitude -0.05, when either projected endpoint is
culled, or when the projected segment is shorter than 0.0001; otherwise
the quad is emitted with z = 0.5. -/
noncomputable def constellationVertexPositionZ (u : ConstUniforms)
    (az1 alt1 az2 alt2 : ℝ) : ℝ :=
  if alt1 < -0.05 ∧ alt2 < -0.05 then -2
  else
    let screen1 := horizontalToScreenConst az1 alt1 u.azimuth u.altitude u.fov
      u.aspect u.minFov u.maxFov u.maxCameraOffset
    let screen2 := horizontalToScreenConst az2 alt2 u.azimuth u.altitude u.fov
      u.aspect u.minFov u.maxFov u.maxCameraOffset
    if screen1.z < 0 ∨ screen2.z < 0 then -2
    else
      let lineLength := Real.sqrt ((screen2.x - screen1.x) ^ 2 +
        (screen2.y - screen1.y) ^ 2)
      if lineLength < 0.0001 then -2
      else 0.5

/-!
Part 4: astronomy.
Sources: src/lib/astronomy.ts (calculateLocalSiderealTime,
getDirectionName) and equatorialToHorizontal of
src/lib/webgpu/shaders/star.wgsl.ts (lines 41 to 79).  JavaScript
truncation, remainder and rounding are modelled explicitly; the WGSL
shader's two-pi literal 3.14159265359 is kept as written.
-/

/-- JavaScript Math.trunc (toward zero), as an integer. -/
noncomputable def jsTrunc (x : ℝ) : ℤ := if 0 ≤ x then ⌊x⌋ else ⌈x⌉

/-- The JavaScript remainder x % y: remainder of truncated division, its
sign following the dividend. -/
noncomputable def jsRem (x y : ℝ) : ℝ := x - y * (jsTrunc (x / y) : ℝ)

/-- JavaScript Math.round: round half toward positive infinity. -/
noncomputable def jsRound (x : ℝ) : ℤ := ⌊x + 1 / 2⌋

/-- The 16 compass labels (DIRECTION_NAMES of astronomy.ts). -/
def DIRECTION_NAMES : List String :=
  ["北", "北北東", "北東", "東北東", "東", "東南東", "南東", "南南東",
   "南", "南南西", "南西", "西南西", "西", "西北西", "北西", "北北西"]

/-- The table index computed by getDirectionName: radians to degrees,
JavaScript % 360 with a +360 fixup for negative results, nearest
22.5-degree sector, then % 16 (the dividend is nonnegative there, so the
truncated JavaScript % is Int.tmod). -/
noncomputable def directionIndex (azimuth : ℝ) : ℤ :=
  let deg0 := jsRem (azimuth * 180 / π) 360
  let deg := if deg0 < 0 then deg0 + 360 else deg0
  Int.tmod (jsRound (deg / 22.5)) 16

/-- getDirectionName of astronomy.ts: index DIRECTION_NAMES, falling back
to the unknown-direction string when out of range (`?? "不明"`). -/
noncomputable def getDirectionName (azimuth : ℝ) : String :=
  DIRECTION_NAMES.getD (directionIndex azimuth).toNat "不明"

/-- WGSL atan2(e1, e2): the angle of the point (e2, e1) in (-pi, pi],
modelled by the complex argument. -/
noncomputable def atan2 (y x : ℝ) : ℝ := Complex.arg ⟨x, y⟩

/-- Horizontal coordinates (azimuth, altitude). -/
structure HorizontalCoord where
  az : ℝ
  alt : ℝ

/-- equatorialToHorizontal of star.wgsl.ts: altitude from the clamped
arcsine; stars below the horizon skip the azimuth computation (az 0), the
near-zenith case returns az 0, and otherwise the atan2-based azimuth is
normalized by adding the shader's two-pi literal when negative. -/
noncomputable def equatorialToHorizontal (ra dec lat lst : ℝ) : HorizontalCoord :=
  let ha := lst - ra
  let sinAlt := Real.sin dec * Real.sin lat +
    Real.cos dec * Real.cos lat * Real.cos ha
  let alt := Real.arcsin (wgslClamp sinAlt (-1) 1)
  if alt < 0 then ⟨0, alt⟩
  else if |Real.cos alt| < 0.0001 then ⟨0, alt⟩
  else
    let x := -(Real.sin ha) * Real.cos dec
    let y := Real.cos lat * Real.sin dec -
      Real.sin lat * Real.cos dec * Real.cos ha
    let az := atan2 x y
    ⟨if az < 0 then az + 2 * 3.14159265359 else az, alt⟩

/-!
Part 5: local sidereal time.
Source: calculateLocalSiderealTime of src/lib/astronomy.ts (lines 12
to 32): Julian date from epoch milliseconds, the GMST polynomial, the
JavaScript remainder normalization into [0, 360), plus longitude, in
radians.
-/

/-- The raw (unnormalized) Greenwich mean sidereal time polynomial in
degrees, as computed by calculateLocalSiderealTime before the modulo-360
normalization. -/
noncomputable def gmstRawDeg (tMs : ℝ) : ℝ :=
  let jd := tMs / 86400000 + 2440587.5
  let jd2000 := jd - 2451545
  280.46061837 + 360.98564736629 * jd2000 + 0.000387933 * (jd2000 / 36525) ^ 2

/-- calculateLocalSiderealTime of astronomy.ts: the GMST polynomial
normalized by ((gmst % 360) + 360) % 360, plus the longitude in degrees,
converted to radians. -/
noncomputable def calculateLocalSiderealTime (tMs longitude : ℝ) : ℝ :=
  (jsRem (jsRem (gmstRawDeg tMs) 360 + 360) 360 + longitude) * π / 180

/-- One sidereal day in milliseconds: the exact period of the linear term
of the GMST polynomial, (360 / 360.98564736629) * 86400000, about
86164090.5 ms. -/
noncomputable def siderealDayMs : ℝ := 360 / 360.98564736629 * 86400000

/-!
Part 6: constellation data loading failure handling.
Sources: StarfieldRenderer.loadConstellationData
(src/lib/webgpu/starfield.ts lines 329 to 374) and the pass recording of
StarfieldRenderer.render (lines 581 to 694).
-/

/-- Outcome of loadConstellationData: the stored line count, whether
console.warn was called, and what reached the GPU constellation buffer. -/
structure ConstLoadResult where
  constellationLineCount : Nat
  warned : Bool
  bufferWritten : Option (List Nat)
deriving DecidableEq

/-- loadConstellationData: the line count is first set from the metadata
and the buffers are created; the fetch of constellations.bin and the
buffer write run inside try/catch, and on any failure the method logs a
warning and zeroes the line count instead of rethrowing.  The returned
Except is always ok: no exception escapes the method. -/
def loadConstellationData (metaLineCount : Nat)
    (fetchResult : Except String (List Nat)) : Except String ConstLoadResult :=
  match fetchResult with
  | Except.ok bytes => Except.ok ⟨metaLineCount, false, some bytes⟩
  | Except.error _ => Except.ok ⟨0, true, none⟩

/-- The render passes recorded by render(). -/
inductive RenderPass
  | background
  | constellation
  | star
  | brightPass
  | blur
  | composite
deriving DecidableEq

/-- The pass sequence of one render() call: nothing when the renderer is
not ready (no stars loaded yet); otherwise background, then the
constellation pass only when it is enabled AND the line count is
positive, then the star pass, bloom bright pass, blur and composite. -/
def renderPasses (showConstellations : Bool)
    (constellationLineCount loadedStarCount : Nat) : List RenderPass :=
  if loadedStarCount = 0 then []
  else
    [RenderPass.background] ++
    (if showConstellations ∧ 0 < constellationLineCount
      then [RenderPass.constellation] else []) ++
    [RenderPass.star, RenderPass.brightPass, RenderPass.blur,
     RenderPass.composite]

/-!
Part 7: skyline generator.
Source: src/lib/webgpu/skyline.ts — getBuildingHeight (lines 93 to 150)
and generateSkylineData (lines 157 to 178), with the layer parameter
table LAYER_PARAMS.
-/

noncomputable def BASE_HEIGHT_DEG : ℝ := 1

noncomputable def HEIGHT_AMPLITUDE_DEG : ℝ := 5

noncomputable def FLOOR_QUANTIZE_DEG : ℝ := 0.4

noncomputable def BUILDING_WIDTH_MIN : ℝ := 0.015

noncomputable def BUILDING_WIDTH_MAX : ℝ := 0.06

noncomputable def BUILDING_SCALE : ℝ := 80

noncomputable def TWO_PI : ℝ := π * 2

/-- Per-layer parameters of the skyline. -/
structure LayerParams where
  azimuthOffset : ℝ
  heightScale : ℝ
  probability : ℝ
  widthScale : ℝ

/-- LAYER_PARAMS: far, middle and near layer. -/
noncomputable def LAYER_PARAMS : List LayerParams :=
  [⟨0, 1, 0.25, 0.7⟩, ⟨0.15, 0.8, 0.35, 0.9⟩, ⟨0.3, 0.6, 0.45, 1.1⟩]

def SKYLINE_TEXTURE_WIDTH : Nat := 2048

/-- fract of skyline.ts, x - Math.floor(x). -/
noncomputable def fract (x : ℝ) : ℝ := x - (⌊x⌋ : ℝ)

/-- hash11Normalized: the sine-based hash, with the (dead, since fract is
already nonnegative) negative fixup kept from the source. -/
noncomputable def hash11Normalized (p : ℝ) : ℝ :=
  let result := fract (Real.sin (p * 127.1) * 43758.5453)
  if result < 0 then result + 1 else result

/-- noise1d: smooth interpolation between neighbouring hash values. -/
noncomputable def noise1d (x : ℝ) : ℝ :=
  let i := (⌊x⌋ : ℝ)
  let f := fract x
  let u := f * f * (3 - 2 * f)
  hash11Normalized i * (1 - u) + hash11Normalized (i + 1) * u

/-- mix, linear interpolation. -/
noncomputable def mix (a b t : ℝ) : ℝ := a * (1 - t) + b * t

/-- The bounded building-index loop of getBuildingHeight (for i in
0..199: stop at the building whose accumulated width spans scaledX),
written with explicit fuel.  Called with fuel 200, i 0, accum 0, idx 0. -/
noncomputable def findBuildingIdx (scaledX widthScale : ℝ) :
    Nat → Nat → ℝ → Nat → Nat
  | 0, _i, _accum, idx => idx
  | fuel + 1, i, accum, _idx =>
    let widthNoise := hash11Normalized ((i : ℝ) * 17.3 + 0.5)
    let baseWidth := mix BUILDING_WIDTH_MIN BUILDING_WIDTH_MAX widthNoise
    let buildingWidth := baseWidth * widthScale * BUILDING_SCALE
    if accum + buildingWidth > scaledX then i
    else findBuildingIdx scaledX widthScale fuel (i + 1) (accum + buildingWidth) i

/-- The building index used by getBuildingHeight: azimuth offset applied,
normalization into [0, 2 pi) as written (floor subtraction of the raw
azimuth, then the two conditional fixups), then the bounded loop. -/
noncomputable def skylineBuildingIdx (azimuth : ℝ) (params : LayerParams) : Nat :=
  let normalizedAz0 := azimuth + params.azimuthOffset -
    (⌊azimuth / TWO_PI⌋ : ℝ) * TWO_PI
  let normalizedAz1 := if normalizedAz0 < 0 then normalizedAz0 + TWO_PI
    else normalizedAz0
  let normalizedAz := if normalizedAz1 ≥ TWO_PI then normalizedAz1 - TWO_PI
    else normalizedAz1
  findBuildingIdx (normalizedAz * BUILDING_SCALE) params.widthScale 200 0 0 0

/-- getBuildingHeight of skyline.ts: existence noise against the
cluster-biased probability; absent buildings give height 0, otherwise the
raw height is quantized to the 0.4-degree floor step and scaled by the
layer's height scale. -/
noncomputable def getBuildingHeight (azimuth : ℝ) (params : LayerParams) : ℝ :=
  let buildingIdx := skylineBuildingIdx azimuth params
  let clusterNoise := noise1d ((buildingIdx : ℝ) * 0.08)
  let existsNoise := hash11Normalized ((buildingIdx : ℝ) * 73.9 + 0.3)
  let localProbability := params.probability + clusterNoise * 0.25
  if existsNoise > localProbability then 0
  else
    let highFreq := hash11Normalized ((buildingIdx : ℝ) * 31.7)
    let rawHeight := clusterNoise * 0.5 + highFreq * 0.5
    let heightDeg := BASE_HEIGHT_DEG + rawHeight * HEIGHT_AMPLITUDE_DEG
    let quantizedHeight := (⌊heightDeg / FLOOR_QUANTIZE_DEG⌋ : ℝ) * FLOOR_QUANTIZE_DEG
    quantizedHeight * params.heightScale

/-- generateSkylineData: for a valid layer index, 2048 texels of building
heights over azimuth 0..2 pi; for any other layer index, the untouched
zero-filled array. -/
noncomputable def generateSkylineData (layerIndex : Nat) : List ℝ :=
  match LAYER_PARAMS.get? layerIndex with
  | none => List.replicate SKYLINE_TEXTURE_WIDTH 0
  | some params =>
    (List.range SKYLINE_TEXTURE_WIDTH).map fun (i : ℕ) =>
      getBuildingHeight ((i : ℝ) / (SKYLINE_TEXTURE_WIDTH : ℝ) * TWO_PI) params

/-!
Theorems.  The claim theorems are named c1_..., c2_... after the claim
identifiers; the remaining theorems are supporting lemmas.
-/

theorem writesContiguous_snoc {α : Type} :
    ∀ (ws : List (Nat × List α)) (off n : Nat), WritesContiguous off ws →
      n = off + ((ws.map Prod.snd).flatten).length →
      ∀ d : List α, WritesContiguous off (ws ++ [(n, d)]) := by
  intro ws
  induction ws with
  | nil =>
      intro off n _ hn d
      simp only [List.map_nil, List.flatten_nil, List.length_nil,
        Nat.add_zero] at hn
      exact ⟨hn, trivial⟩
  | cons w rest ih =>
      intro off n h hn d
      obtain ⟨h1, h2⟩ := h
      refine ⟨h1, ?_⟩
      refine ih (off + w.2.length) n h2 ?_ d
      simp only [List.map_cons, List.flatten_cons, List.length_append] at hn
      omega

theorem flushedData_snoc {α : Type} (ws : List (Nat × List α))
    (p : Nat × List α) (rb : Nat) (pd : List α) :
    flushedData ⟨ws ++ [p], rb, pd⟩ = (ws.map Prod.snd).flatten ++ p.2 := by
  simp [flushedData]

theorem initLoader_inv {α : Type} : LoaderInv ([] : List α) (initLoader α) := by
  refine ⟨rfl, rfl, rfl, by simp [initLoader], trivial⟩

theorem processChunk_inv {α : Type} {stream : List α} {s : LoaderState α}
    (h : LoaderInv stream s) (chunk : List α) :
    LoaderInv (stream ++ chunk) (processChunk s chunk) := by
  obtain ⟨hjoin, hlen, hmod, hpend, hcont⟩ := h
  unfold processChunk
  simp only [BYTES_PER_STAR, List.length_append]
  have hdm := Nat.div_add_mod (s.pending.length + chunk.length) 16
  have hlt : (s.pending.length + chunk.length) % 16 < 16 :=
    Nat.mod_lt _ (by norm_num)
  have hle : (s.pending.length + chunk.length) / 16 * 16 ≤
      s.pending.length + chunk.length := Nat.div_mul_le_self _ _
  have htakelen :
      (List.take ((s.pending.length + chunk.length) / 16 * 16)
        (s.pending ++ chunk)).length
        = (s.pending.length + chunk.length) / 16 * 16 := by
    rw [List.length_take, List.length_append]
    omega
  have hjoin' : (List.map Prod.snd s.writes).flatten ++ s.pending
      = stream := hjoin
  by_cases hpos : 0 < (s.pending.length + chunk.length) / 16 * 16
  · rw [if_pos hpos]
    refine ⟨?_, ?_, ?_, ?_, ?_⟩
    · show flushedData ⟨_, _, _⟩ ++ _ = _
      rw [flushedData_snoc, List.append_assoc, List.take_append_drop,
        ← List.append_assoc, hjoin']
    · show s.receivedBytes + _ = (flushedData ⟨_, _, _⟩).length
      rw [flushedData_snoc, List.length_append, htakelen, hlen]
      rfl
    · show (s.receivedBytes + _) % 16 = 0
      omega
    · show (List.drop _ (s.pending ++ chunk)).length < 16
      rw [List.length_drop, List.length_append]
      omega
    · show WritesContiguous 0 (s.writes ++ [(s.receivedBytes, _)])
      refine writesContiguous_snoc s.writes 0 s.receivedBytes hcont ?_ _
      rw [Nat.zero_add]
      exact hlen
  · rw [if_neg hpos]
    have hsmall : s.pending.length + chunk.length < 16 := by
      by_contra hge
      have h16 : 16 ≤ s.pending.length + chunk.length := by omega
      have : 1 ≤ (s.pending.length + chunk.length) / 16 :=
        (Nat.one_le_div_iff (by norm_num)).mpr h16
      omega
    refine ⟨?_, hlen, hmod, ?_, hcont⟩
    · show flushedData s ++ (s.pending ++ chunk) = stream ++ chunk
      rw [← List.append_assoc, hjoin]
    · show (s.pending ++ chunk).length < 16
      rw [List.length_append]
      exact hsmall

theorem loadState_inv {α : Type} :
    ∀ (chunks : List (List α)) (s : LoaderState α) (stream : List α),
      LoaderInv stream s →
      LoaderInv (stream ++ chunks.flatten) (chunks.foldl processChunk s) := by
  intro chunks
  induction chunks with
  | nil =>
      intro s stream h
      simpa using h
  | cons c rest ih =>
      intro s stream h
      have h2 := ih (processChunk s c) (stream ++ c) (processChunk_inv h c)
      simpa [List.append_assoc] using h2

theorem loaderStep_fst {α : Type} (t : Nat) :
    ∀ (chunks : List (List α)) (s : LoaderState α) (reps : List Nat),
      (chunks.foldl (loaderStep t) (s, reps)).1 = chunks.foldl processChunk s := by
  intro chunks
  induction chunks with
  | nil => intro s reps; rfl
  | cons c rest ih =>
      intro s reps
      show (rest.foldl (loaderStep t) (loaderStep t (s, reps) c)).1 = _
      rw [show loaderStep t (s, reps) c
            = (processChunk s c, (loaderStep t (s, reps) c).2) from rfl]
      exact ih (processChunk s c) _

theorem loadStarData_state {α : Type} (t : Nat) (chunks : List (List α)) :
    (loadStarData t chunks).1 = chunks.foldl processChunk (initLoader α) := by
  unfold loadStarData
  exact loaderStep_fst t chunks (initLoader α) []

/-- C5: after processing each incoming chunk, the flushed byte offset
(receivedBytes) is a multiple of 16 and the retained remainder
(pendingBuffer) is strictly shorter than 16 bytes.  Quantifying over an
arbitrary chunk list covers every prefix of every chunk sequence, since
the state after a prefix is exactly the loader state for that prefix. -/
theorem c5_loader_alignment_invariant {α : Type} (totalBytes : Nat)
    (chunks : List (List α)) :
    (loadStarData totalBytes chunks).1.receivedBytes % 16 = 0 ∧
    (loadStarData totalBytes chunks).1.pending.length < 16 := by
  have h := loadState_inv chunks (initLoader α) [] initLoader_inv
  rw [loadStarData_state]
  exact ⟨h.2.2.1, h.2.2.2.1⟩

/-- C1: for any chunk sequence totalling N * 16 bytes, loadStarData flushes
exactly the whole stream, in order, as contiguous writes from offset 0
(hence exactly N complete 16-byte records), ends with an empty remainder,
and the last reported progress value is exactly 100. -/
theorem c1_loader_flushes_exactly {α : Type} (chunks : List (List α)) (N : Nat)
    (h : chunks.flatten.length = N * 16) :
    flushedData (loadStarData (N * 16) chunks).1 = chunks.flatten ∧
    (loadStarData (N * 16) chunks).1.receivedBytes = N * 16 ∧
    (loadStarData (N * 16) chunks).1.pending = [] ∧
    WritesContiguous 0 (loadStarData (N * 16) chunks).1.writes ∧
    (loadStarData (N * 16) chunks).2.getLast? = some 100 := by
  have hinv := loadState_inv chunks (initLoader α) [] initLoader_inv
  simp only [List.nil_append] at hinv
  obtain ⟨hjoin, hlen, hmod, hpend, hcont⟩ := hinv
  have hstate := loadStarData_state (N * 16) chunks
  have hlensum : (flushedData (chunks.foldl processChunk (initLoader α))).length
      + (chunks.foldl processChunk (initLoader α)).pending.length = N * 16 := by
    rw [← List.length_append, hjoin, h]
  have hpnil : (chunks.foldl processChunk (initLoader α)).pending = [] := by
    have : (chunks.foldl processChunk (initLoader α)).pending.length = 0 := by
      omega
    exact List.eq_nil_of_length_eq_zero this
  rw [hstate]
  refine ⟨?_, ?_, hpnil, hcont, ?_⟩
  · rw [← hjoin, hpnil, List.append_nil]
  · omega
  · show (_ ++ [100]).getLast? = some 100
    exact List.getLast?_concat _

/-- Concrete run for C1: chunk sizes 10, 6 and 16 bytes totalling
2 * 16 bytes (the end-to-end scenario of the specification). -/
theorem c1_loader_flushes_exactly_witness :
    (([[0, 1, 2, 3, 4, 5, 6, 7, 8, 9], [10, 11, 12, 13, 14, 15],
       [16, 17, 18, 19, 20, 21, 22, 23, 24, 25, 26, 27, 28, 29, 30, 31]] :
        List (List Nat)).flatten.length = 2 * 16) ∧
    (flushedData (loadStarData (2 * 16)
        [[0, 1, 2, 3, 4, 5, 6, 7, 8, 9], [10, 11, 12, 13, 14, 15],
         [16, 17, 18, 19, 20, 21, 22, 23, 24, 25, 26, 27, 28, 29, 30, 31]]).1 =
      ([[0, 1, 2, 3, 4, 5, 6, 7, 8, 9], [10, 11, 12, 13, 14, 15],
        [16, 17, 18, 19, 20, 21, 22, 23, 24, 25, 26, 27, 28, 29, 30, 31]] :
         List (List Nat)).flatten) :=
  ⟨by decide,
   (c1_loader_flushes_exactly
     [[0, 1, 2, 3, 4, 5, 6, 7, 8, 9], [10, 11, 12, 13, 14, 15],
      [16, 17, 18, 19, 20, 21, 22, 23, 24, 25, 26, 27, 28, 29, 30, 31]]
     2 (by decide)).1⟩

theorem horizontalToCartesian_length (az alt : ℝ) :
    length (horizontalToCartesian az alt) = 1 := by
  unfold length horizontalToCartesian
  have h1 := Real.sin_sq_add_cos_sq az
  have h2 := Real.sin_sq_add_cos_sq alt
  have : (Real.cos alt * Real.sin az) ^ 2 + Real.sin alt ^ 2 +
      (Real.cos alt * Real.cos az) ^ 2 = 1 := by nlinarith
  rw [show ((Real.cos alt * Real.sin az)) ^ 2 + (Real.sin alt) ^ 2 +
      ((Real.cos alt * Real.cos az)) ^ 2 = 1 from this]
  exact Real.sqrt_one

theorem normalize_of_length_one {v : Vec3} (h : length v = 1) :
    normalize v = v := by
  unfold normalize
  rw [h]
  norm_num

theorem dot_cross_left (a b : Vec3) : dot a (cross a b) = 0 := by
  unfold dot cross
  ring

theorem dot_cross_right (a b : Vec3) : dot b (cross a b) = 0 := by
  unfold dot cross
  ring

theorem dot_normalize_eq_zero {a w : Vec3} (h : dot a w = 0) :
    dot a (normalize w) = 0 := by
  unfold normalize
  by_cases h0 : length w = 0
  · rw [if_pos h0]
    simp [dot]
  · rw [if_neg h0]
    unfold dot at h ⊢
    field_simp
    linarith

theorem horizontalToCartesian_sq (az alt : ℝ) :
    (horizontalToCartesian az alt).x ^ 2 + (horizontalToCartesian az alt).y ^ 2
      + (horizontalToCartesian az alt).z ^ 2 = 1 := by
  have h1 := Real.sin_sq_add_cos_sq az
  have h2 := Real.sin_sq_add_cos_sq alt
  unfold horizontalToCartesian
  dsimp only
  nlinarith

theorem cos_altitude_lower (alt : ℝ)
    (h1 : MIN_ALTITUDE ≤ alt) (h2 : alt ≤ MAX_ALTITUDE) :
    0.001 < Real.cos alt ∧ 0 < Real.cos alt := by
  unfold MIN_ALTITUDE at h1
  unfold MAX_ALTITUDE at h2
  have habs : |alt| ≤ π / 2 - 0.1 := abs_le.mpr ⟨by linarith, h2⟩
  have hpi : (3.14 : ℝ) < π := by
    have := Real.pi_gt_3141592
    linarith
  have hmono : Real.cos (π / 2 - 0.1) ≤ Real.cos |alt| :=
    Real.cos_le_cos_of_nonneg_of_le_pi (abs_nonneg alt) (by linarith) habs
  have hsin : Real.cos (π / 2 - 0.1) = Real.sin 0.1 := Real.cos_pi_div_two_sub 0.1
  have hsinpos : (0.001 : ℝ) < Real.sin 0.1 := by
    have := Real.sin_gt_sub_cube (x := 0.1) (by norm_num) (by norm_num)
    nlinarith
  have : (0.001 : ℝ) < Real.cos alt := by
    rw [← Real.cos_abs]
    calc (0.001 : ℝ) < Real.sin 0.1 := hsinpos
    _ = Real.cos (π / 2 - 0.1) := hsin.symm
    _ ≤ Real.cos |alt| := hmono
  exact ⟨this, by linarith⟩

theorem length_cross_worldUp (c : CameraParams) :
    length (cross worldUp (horizontalToCartesian c.azimuth c.altitude))
      = |Real.cos c.altitude| := by
  unfold length cross worldUp horizontalToCartesian
  simp only
  have h1 := Real.sin_sq_add_cos_sq c.azimuth
  rw [show (1 * (Real.cos c.altitude * Real.cos c.azimuth) -
        0 * Real.sin c.altitude) ^ 2 +
      (0 * (Real.cos c.altitude * Real.sin c.azimuth) -
        0 * (Real.cos c.altitude * Real.cos c.azimuth)) ^ 2 +
      (0 * Real.sin c.altitude -
        1 * (Real.cos c.altitude * Real.sin c.azimuth)) ^ 2
      = Real.cos c.altitude ^ 2 by nlinarith]
  exact Real.sqrt_sq_eq_abs _

theorem cameraViewDir_eq (c : CameraParams) :
    cameraViewDir c = horizontalToCartesian c.azimuth c.altitude :=
  normalize_of_length_one (horizontalToCartesian_length c.azimuth c.altitude)

theorem cameraRight_nondegenerate (c : CameraParams)
    (h1 : MIN_ALTITUDE ≤ c.altitude) (h2 : c.altitude ≤ MAX_ALTITUDE) :
    cameraRight c = normalize (cross worldUp (cameraViewDir c)) := by
  unfold cameraRight
  rw [if_neg]
  rw [cameraViewDir_eq, length_cross_worldUp]
  have hcos := cos_altitude_lower c.altitude h1 h2
  rw [abs_of_pos hcos.2]
  linarith [hcos.1]

theorem dot_viewDir_cameraRight (c : CameraParams)
    (h1 : MIN_ALTITUDE ≤ c.altitude) (h2 : c.altitude ≤ MAX_ALTITUDE) :
    dot (cameraViewDir c) (cameraRight c) = 0 := by
  rw [cameraRight_nondegenerate c h1 h2]
  exact dot_normalize_eq_zero (dot_cross_right worldUp (cameraViewDir c))

theorem dot_viewDir_cameraUp (c : CameraParams) :
    dot (cameraViewDir c) (cameraUp c) = 0 := by
  unfold cameraUp
  exact dot_normalize_eq_zero (dot_cross_left (cameraViewDir c) (cameraRight c))

theorem toTargetDir_at_view (maxCameraOffset : ℝ) (c : CameraParams)
    (hoff : 0 ≤ maxCameraOffset) :
    toTargetDirOf maxCameraOffset c.azimuth c.altitude c = cameraViewDir c := by
  have hv := cameraViewDir_eq c
  have hsum := horizontalToCartesian_sq c.azimuth c.altitude
  set v := horizontalToCartesian c.azimuth c.altitude with hvdef
  have hclamp : 0 ≤ max 0 (min 1 ((c.fov - MIN_FOV) / (MAX_FOV - MIN_FOV))) :=
    le_max_left 0 _
  set t := max 0 (min 1 ((c.fov - MIN_FOV) / (MAX_FOV - MIN_FOV))) with htdef
  have ho : 0 ≤ maxCameraOffset * t := mul_nonneg hoff hclamp
  have h1off : 0 < 1 + maxCameraOffset * t := by linarith
  unfold toTargetDirOf projCameraPos calculateCameraOffset subtract
  rw [hv]
  simp only [← hvdef, ← htdef]
  have hcomp : (⟨v.x - -v.x * (maxCameraOffset * t),
      v.y - -v.y * (maxCameraOffset * t),
      v.z - -v.z * (maxCameraOffset * t)⟩ : Vec3)
      = ⟨v.x * (1 + maxCameraOffset * t), v.y * (1 + maxCameraOffset * t),
         v.z * (1 + maxCameraOffset * t)⟩ := by
    ext <;> simp <;> ring
  rw [hcomp]
  have hlen : length ⟨v.x * (1 + maxCameraOffset * t),
      v.y * (1 + maxCameraOffset * t), v.z * (1 + maxCameraOffset * t)⟩
      = 1 + maxCameraOffset * t := by
    unfold length
    simp only
    rw [show (v.x * (1 + maxCameraOffset * t)) ^ 2 +
        (v.y * (1 + maxCameraOffset * t)) ^ 2 +
        (v.z * (1 + maxCameraOffset * t)) ^ 2
        = (1 + maxCameraOffset * t) ^ 2 by nlinarith]
    exact Real.sqrt_sq h1off.le
  rw [hlen]
  have hne : (1 + maxCameraOffset * t) ≠ 0 := ne_of_gt h1off
  ext <;> dsimp only <;> field_simp <;> ring

theorem dot_self_viewDir (c : CameraParams) :
    dot (cameraViewDir c) (cameraViewDir c) = 1 := by
  rw [cameraViewDir_eq]
  have := horizontalToCartesian_sq c.azimuth c.altitude
  unfold dot
  nlinarith

/-- C8: a target exactly at the camera view direction projects to the
screen fraction (1/2, 1/2) and is marked visible, for every valid camera
state: altitude within the MIN_ALTITUDE..MAX_ALTITUDE clamp, fov within
MIN_FOV..MAX_FOV, positive aspect, and a nonnegative camera dolly bound. -/
theorem c8_projection_center (maxCameraOffset : ℝ) (c : CameraParams)
    (hoff : 0 ≤ maxCameraOffset)
    (halt1 : MIN_ALTITUDE ≤ c.altitude) (halt2 : c.altitude ≤ MAX_ALTITUDE)
    (hfov1 : MIN_FOV ≤ c.fov) (hfov2 : c.fov ≤ MAX_FOV)
    (hasp : 0 < c.aspect) :
    (projectToScreen maxCameraOffset c.azimuth c.altitude c).x = 1 / 2 ∧
    (projectToScreen maxCameraOffset c.azimuth c.altitude c).y = 1 / 2 ∧
    (projectToScreen maxCameraOffset c.azimuth c.altitude c).visible := by
  have hdir := toTargetDir_at_view maxCameraOffset c hoff
  have hdot := dot_self_viewDir c
  have hx := dot_viewDir_cameraRight c halt1 halt2
  have hy := dot_viewDir_cameraUp c
  simp only [projectToScreen, hdir, hdot, hx, hy]
  rw [if_neg (by norm_num : ¬ ((1 : ℝ) ≤ 0))]
  norm_num

/-- C8 witness: the initial camera (north, altitude pi/4, fov pi/2,
aspect 1) with a zero dolly bound. -/
theorem c8_projection_center_witness :
    ((0 : ℝ) ≤ 0 ∧ MIN_ALTITUDE ≤ (π / 4 : ℝ) ∧ (π / 4 : ℝ) ≤ MAX_ALTITUDE ∧
      MIN_FOV ≤ (π / 2 : ℝ) ∧ (π / 2 : ℝ) ≤ MAX_FOV ∧ (0 : ℝ) < 1) ∧
    ((projectToScreen 0 0 (π / 4) ⟨0, π / 4, π / 2, 1⟩).x = 1 / 2 ∧
     (projectToScreen 0 0 (π / 4) ⟨0, π / 4, π / 2, 1⟩).y = 1 / 2 ∧
     (projectToScreen 0 0 (π / 4) ⟨0, π / 4, π / 2, 1⟩).visible) := by
  have hpi : (3.14 : ℝ) < π := by
    have := Real.pi_gt_3141592
    linarith
  have hpi2 : π < 3.15 := by
    have := Real.pi_lt_3141593
    linarith
  refine ⟨⟨le_refl 0, ?_, ?_, ?_, ?_, by norm_num⟩, ?_⟩
  · unfold MIN_ALTITUDE; linarith
  · unfold MAX_ALTITUDE; linarith
  · unfold MIN_FOV; linarith
  · unfold MAX_FOV; linarith
  · exact c8_projection_center 0 ⟨0, π / 4, π / 2, 1⟩ (le_refl 0)
      (by unfold MIN_ALTITUDE; linarith) (by unfold MAX_ALTITUDE; linarith)
      (by unfold MIN_FOV; linarith) (by unfold MAX_FOV; linarith)
      (by norm_num)

theorem starUniforms_viewDir (c : CameraParams) :
    (starUniforms c).viewDir = horizontalToCartesian c.azimuth c.altitude :=
  cameraViewDir_eq c

theorem starUniforms_cullRadius (c : CameraParams) :
    (starUniforms c).cullRadius = c.fov * 0.5 * diagonalFactor c.aspect * 1.1 :=
  rfl

theorem sqrt_two_lower : (15 : ℝ) / 11 ≤ Real.sqrt 2 := by
  nlinarith [Real.sq_sqrt (by norm_num : (0:ℝ) ≤ 2), Real.sqrt_nonneg 2]

theorem diagonalFactor_one : diagonalFactor 1 = Real.sqrt 2 := by
  unfold diagonalFactor
  norm_num

/-- The dot product of a star at azimuth 0 and altitude alt with the view
direction of the initial camera (azimuth 0, altitude pi/4) collapses to
cos(pi/4 - alt). -/
theorem star_cam0_dot (fov asp alt : ℝ) :
    dot (horizontalToCartesian 0 alt)
      ((starUniforms ⟨0, π / 4, fov, asp⟩).viewDir) = Real.cos (π / 4 - alt) := by
  rw [starUniforms_viewDir]
  unfold dot horizontalToCartesian
  dsimp only
  rw [Real.cos_sub]
  simp [Real.sin_zero, Real.cos_zero]
  ring

/-- A star at azimuth 0 with altitude in [0, pi/4] survives every cull of
the star vertex stage for the camera (0, pi/4, pi/2, 1): its clip z is the
in-view sentinel 0.5. -/
theorem star_cam0_included (alt : ℝ) (h1 : 0 ≤ alt) (h2 : alt ≤ π / 4) :
    starVertexPositionZ (starUniforms ⟨0, π / 4, π / 2, 1⟩) 0 alt = 0.5 := by
  have hpi : (3.14 : ℝ) < π := by
    have := Real.pi_gt_3141592
    linarith
  have hdot := star_cam0_dot (π / 2) 1 alt
  have hcospos : 0 < Real.cos (π / 4 - alt) :=
    Real.cos_pos_of_mem_Ioo ⟨by linarith, by linarith⟩
  unfold starVertexPositionZ
  rw [if_neg (by linarith : ¬ alt < 0)]
  unfold horizontalToScreenStar
  simp only [hdot]
  rw [if_neg (by linarith : ¬ Real.cos (π / 4 - alt) < 0)]
  have hclamp : wgslClamp (Real.cos (π / 4 - alt)) (-1) 1 = Real.cos (π / 4 - alt) := by
    unfold wgslClamp
    rw [max_eq_left (Real.neg_one_le_cos _), min_eq_left (Real.cos_le_one _)]
  rw [hclamp, Real.arccos_cos (by linarith) (by linarith)]
  rw [if_neg]
  rw [starUniforms_cullRadius]
  dsimp only
  rw [diagonalFactor_one]
  push_neg
  have hs2 := sqrt_two_lower
  nlinarith [Real.pi_pos]

/-- C2 counterexample: for camera azimuth 0, altitude pi/4, fov pi/2,
aspect 1, a star whose computed horizontal altitude is exactly 0 (at
azimuth 0) is NOT excluded by the star vertex stage: its clip z is 0.5,
not the off-screen sentinel, because the horizon cutoff alt < 0 is
strict.  This refutes the claim that altitude exactly 0 is excluded. -/
theorem c2_horizon_cutoff_counterexample :
    equatorialToHorizontal 0 (π / 2) 0 0 = ⟨0, 0⟩ ∧
    ¬ (starVertexPositionZ (starUniforms ⟨0, π / 4, π / 2, 1⟩) 0 0 < 0) ∧
    starVertexPositionZ (starUniforms ⟨0, π / 4, π / 2, 1⟩) 0 0 = 0.5 := by
  have h := star_cam0_included 0 (le_refl 0) (by positivity)
  refine ⟨?_, ?_, h⟩
  · unfold equatorialToHorizontal atan2
    dsimp only
    rw [sub_zero]
    simp only [Real.sin_zero, Real.cos_zero, Real.sin_pi_div_two,
      Real.cos_pi_div_two, mul_zero, zero_mul, mul_one, one_mul, zero_add,
      sub_zero, neg_zero, add_zero]
    have hclamp : wgslClamp 0 (-1) 1 = 0 := by
      unfold wgslClamp
      norm_num
    rw [hclamp, Real.arcsin_zero]
    rw [if_neg (by norm_num : ¬ (0 : ℝ) < 0)]
    rw [if_neg (by rw [Real.cos_zero]; norm_num :
      ¬ |Real.cos (0 : ℝ)| < 0.0001)]
    have harg : Complex.arg ⟨(1 : ℝ), (0 : ℝ)⟩ = 0 := by
      rw [show (⟨(1 : ℝ), (0 : ℝ)⟩ : ℂ) = 1 from rfl]
      exact Complex.arg_one
    rw [harg]
    rw [if_neg (by norm_num : ¬ (0 : ℝ) < 0)]
  · rw [h]
    norm_num

/-- C2 amended: with camera azimuth 0, altitude pi/4, fov pi/2, aspect 1,
the horizon cutoff alt < 0 is strict: a star whose computed horizontal
altitude is exactly 0 is still included (clip z 0.5), a star at altitude
+0.01 is included, and every star with strictly negative computed
altitude is excluded (clip z -2). -/
theorem c2_horizon_cutoff_amended :
    (∀ az alt : ℝ, alt < 0 →
      starVertexPositionZ (starUniforms ⟨0, π / 4, π / 2, 1⟩) az alt = -2) ∧
    starVertexPositionZ (starUniforms ⟨0, π / 4, π / 2, 1⟩) 0 0 = 0.5 ∧
    starVertexPositionZ (starUniforms ⟨0, π / 4, π / 2, 1⟩) 0 0.01 = 0.5 := by
  have hpi : (3.14 : ℝ) < π := by
    have := Real.pi_gt_3141592
    linarith
  refine ⟨?_, star_cam0_included 0 (le_refl 0) (by positivity),
    star_cam0_included 0.01 (by norm_num) (by linarith)⟩
  intro az alt haltneg
  unfold starVertexPositionZ
  rw [if_pos haltneg]

/-- C2 amended witness: a star at computed altitude -1 radian is excluded. -/
theorem c2_horizon_cutoff_amended_witness :
    ((-1 : ℝ) < 0) ∧
    starVertexPositionZ (starUniforms ⟨0, π / 4, π / 2, 1⟩) 0 (-1) = -2 :=
  ⟨by norm_num, c2_horizon_cutoff_amended.1 0 (-1) (by norm_num)⟩

theorem viewDir_horizon_camera (fov asp : ℝ) :
    (starUniforms ⟨0, 0, fov, asp⟩).viewDir = ⟨0, 0, 1⟩ := by
  rw [starUniforms_viewDir]
  unfold horizontalToCartesian
  dsimp only
  norm_num

/-- C4 counterexample: camera azimuth 0, altitude 0, fov = MAX_FOV,
aspect 1 is a valid camera state, and the star at azimuth pi/2,
altitude 0 lies exactly 90 degrees from the view direction (dot
product 0, so dot <= 0 holds); yet the star shader's horizontalToScreen
does NOT cull it: the behind-camera check is strict (dot < 0) and the
angular distance pi/2 does not exceed the cull radius
MAX_FOV * 0.5 * sqrt 2 * 1.1, so the function returns the visible
sentinel z = 0.5. -/
theorem c4_projection_culling_counterexample :
    dot (horizontalToCartesian (π / 2) 0)
      ((starUniforms ⟨0, 0, MAX_FOV, 1⟩).viewDir) ≤ 0 ∧
    (horizontalToScreenStar (starUniforms ⟨0, 0, MAX_FOV, 1⟩) (π / 2) 0).z
      = 0.5 := by
  have hpi : (3.14 : ℝ) < π := by
    have := Real.pi_gt_3141592
    linarith
  have hvd := viewDir_horizon_camera MAX_FOV 1
  have hdot : dot (horizontalToCartesian (π / 2) 0)
      ((starUniforms ⟨0, 0, MAX_FOV, 1⟩).viewDir) = 0 := by
    rw [hvd]
    unfold dot horizontalToCartesian
    dsimp only
    simp [Real.cos_pi_div_two]
  refine ⟨le_of_eq hdot, ?_⟩
  unfold horizontalToScreenStar
  simp only [hdot]
  rw [if_neg (by norm_num : ¬ (0 : ℝ) < 0)]
  have hclamp : wgslClamp (0 : ℝ) (-1) 1 = 0 := by
    unfold wgslClamp
    norm_num
  rw [hclamp, Real.arccos_zero]
  rw [if_neg]
  rw [starUniforms_cullRadius]
  dsimp only
  rw [diagonalFactor_one]
  unfold MAX_FOV
  push_neg
  have hs2 := sqrt_two_lower
  nlinarith [Real.pi_pos]

/-- C4 amended: the culling split between the two implementations.  The
star shader's horizontalToScreen marks a star not visible (off-screen
sentinel z < 0) whenever its angular distance from the view direction
exceeds the cull radius fov/2 * diagonalFactor * 1.1, and whenever it is
strictly behind the view plane (dot < 0); at dot exactly 0 the shader may
keep the star (see the counterexample).  projectToScreen of projection.ts
marks a target not visible whenever dot <= 0. -/
theorem c4_projection_culling_amended :
    (∀ (u : StarUniforms) (az alt : ℝ),
      u.cullRadius < Real.arccos (wgslClamp
        (dot (horizontalToCartesian az alt) u.viewDir) (-1) 1) →
      (horizontalToScreenStar u az alt).z < 0) ∧
    (∀ (u : StarUniforms) (az alt : ℝ),
      dot (horizontalToCartesian az alt) u.viewDir < 0 →
      (horizontalToScreenStar u az alt).z < 0) ∧
    (∀ (maxCameraOffset targetAz targetAlt : ℝ) (c : CameraParams),
      dot (toTargetDirOf maxCameraOffset targetAz targetAlt c)
        (cameraViewDir c) ≤ 0 →
      ¬ (projectToScreen maxCameraOffset targetAz targetAlt c).visible) := by
  refine ⟨?_, ?_, ?_⟩
  · intro u az alt h
    unfold horizontalToScreenStar
    by_cases hd : dot (horizontalToCartesian az alt) u.viewDir < 0
    · rw [if_pos hd]
      norm_num
    · rw [if_neg hd, if_pos (by exact lt_of_lt_of_le h (le_refl _) : _ > u.cullRadius)]
      norm_num
  · intro u az alt h
    unfold horizontalToScreenStar
    rw [if_pos h]
    norm_num
  · intro maxCameraOffset targetAz targetAlt c h
    unfold projectToScreen
    rw [if_pos h]
    exact not_false

/-- C4 amended witness: a star at azimuth pi (directly behind the
horizon-looking camera) has dot product -1 < 0 with the view direction
and is culled by the star shader. -/
theorem c4_projection_culling_amended_witness :
    dot (horizontalToCartesian π 0)
      ((starUniforms ⟨0, 0, MAX_FOV, 1⟩).viewDir) < 0 ∧
    (horizontalToScreenStar (starUniforms ⟨0, 0, MAX_FOV, 1⟩) π 0).z < 0 := by
  have hvd := viewDir_horizon_camera MAX_FOV 1
  have hdot : dot (horizontalToCartesian π 0)
      ((starUniforms ⟨0, 0, MAX_FOV, 1⟩).viewDir) = -1 := by
    rw [hvd]
    unfold dot horizontalToCartesian
    dsimp only
    simp [Real.cos_pi]
  have hneg : dot (horizontalToCartesian π 0)
      ((starUniforms ⟨0, 0, MAX_FOV, 1⟩).viewDir) < 0 := by
    rw [hdot]
    norm_num
  exact ⟨hneg, c4_projection_culling_amended.2.1 _ π 0 hneg⟩

theorem horizontalToCartesian_zero_zero :
    horizontalToCartesian 0 0 = ⟨0, 0, 1⟩ := by
  unfold horizontalToCartesian
  norm_num

/-- Evaluation of the constellation projection for a camera looking at the
horizon due north with fov = minFov = pi/6 (so the dolly offset is zero)
and a point at azimuth 0 within pi/12 of the horizon. -/
theorem const_screen_eval (alt : ℝ) (h3 : |alt| ≤ π / 12) :
    horizontalToScreenConst 0 alt 0 0 (π / 6) 1 (π / 6) (π * 2 / 3) 1
      = ⟨0, Real.sin alt / Real.cos alt * (1 / Real.tan (π / 6 * 0.5)), 0.5, 1⟩ := by
  have hpi : (3.14 : ℝ) < π := by
    have := Real.pi_gt_3141592
    linarith
  have habs := abs_le.mp h3
  have hcos : 0 < Real.cos alt :=
    Real.cos_pos_of_mem_Ioo ⟨by linarith, by linarith⟩
  have hoffzero : calculateCameraOffset (π / 6) (π / 6) (π * 2 / 3) 1 = 0 := by
    unfold calculateCameraOffset
    norm_num
  have hp : horizontalToCartesian 0 alt = ⟨0, Real.sin alt, Real.cos alt⟩ := by
    unfold horizontalToCartesian
    norm_num
  unfold horizontalToScreenConst
  rw [horizontalToCartesian_zero_zero, hoffzero, hp]
  dsimp only
  have hsub : subtract ⟨0, Real.sin alt, Real.cos alt⟩
      ⟨-(0 : ℝ) * 0, -(0 : ℝ) * 0, -(1 : ℝ) * 0⟩
      = ⟨0, Real.sin alt, Real.cos alt⟩ := by
    unfold subtract
    norm_num
  have hlen1 : length ⟨0, Real.sin alt, Real.cos alt⟩ = 1 := by
    unfold length
    rw [show (0 : ℝ) ^ 2 + Real.sin alt ^ 2 + Real.cos alt ^ 2 = 1 by
      have := Real.sin_sq_add_cos_sq alt
      nlinarith]
    exact Real.sqrt_one
  have hcrossup : cross worldUp ⟨0, 0, 1⟩ = ⟨1, 0, 0⟩ := by
    unfold cross worldUp
    norm_num
  have hlenr : length (⟨1, 0, 0⟩ : Vec3) = 1 := by
    unfold length
    norm_num
  rw [hsub, hlen1, hcrossup]
  dsimp only
  have hrightif : (if length (⟨1, 0, 0⟩ : Vec3) < 0.001 then (⟨1, 0, 0⟩ : Vec3)
      else normalize ⟨1, 0, 0⟩) = ⟨1, 0, 0⟩ := by
    rw [if_neg (by rw [hlenr]; norm_num), normalize_of_length_one hlenr]
  rw [hrightif]
  have hcrossv : cross ⟨0, 0, 1⟩ ⟨1, 0, 0⟩ = ⟨0, 1, 0⟩ := by
    unfold cross
    norm_num
  have hlenu : length (⟨0, 1, 0⟩ : Vec3) = 1 := by
    unfold length
    norm_num
  rw [hcrossv, normalize_of_length_one hlenu]
  have hdot : dot ⟨0 / 1, Real.sin alt / 1, Real.cos alt / 1⟩ ⟨0, 0, 1⟩
      = Real.cos alt := by
    unfold dot
    norm_num
  rw [hdot]
  rw [if_neg (by linarith : ¬ Real.cos alt < 0)]
  have hclamp : wgslClamp (Real.cos alt) (-1) 1 = Real.cos alt := by
    unfold wgslClamp
    rw [max_eq_left (Real.neg_one_le_cos _), min_eq_left (Real.cos_le_one _)]
  have harc : Real.arccos (Real.cos alt) = |alt| := by
    rw [← Real.cos_abs]
    exact Real.arccos_cos (abs_nonneg alt) (by linarith)
  rw [hclamp, harc, diagonalFactor_one]
  rw [if_neg]
  · have hdr : dot ⟨0 / 1, Real.sin alt / 1, Real.cos alt / 1⟩ ⟨1, 0, 0⟩ = 0 := by
      unfold dot
      norm_num
    have hdu : dot ⟨0 / 1, Real.sin alt / 1, Real.cos alt / 1⟩ ⟨0, 1, 0⟩
        = Real.sin alt := by
      unfold dot
      norm_num
    rw [hdr, hdu]
    ext <;> dsimp only <;> norm_num
  · push_neg
    have hs2 := sqrt_two_lower
    have : π / 12 ≤ π / 6 * 0.5 * Real.sqrt 2 * 1.1 := by
      nlinarith [Real.pi_pos]
    linarith

/-- C3 counterexample: camera looking due north at the horizon with
fov = MIN_FOV and aspect 1; the line segment with one endpoint at
computed altitude -0.01 (below the horizon) and the other at +0.01, both
at azimuth 0, is NOT dropped: the shader emits its quad with clip z 0.5,
because the horizon test drops a segment only when BOTH endpoints are
below -0.05.  This refutes the claim that a segment is dropped whenever
either endpoint falls below the horizon. -/
theorem c3_segment_drop_counterexample :
    ((-0.01 : ℝ) < 0) ∧
    constellationVertexPositionZ
      ⟨0, 0, π / 6, 1, 0, 0, 0.002, 0.6, π / 6, π * 2 / 3, 1⟩
      0 (-0.01) 0 0.01 = 0.5 := by
  have hpi : (3.14 : ℝ) < π := by
    have := Real.pi_gt_3141592
    linarith
  refine ⟨by norm_num, ?_⟩
  have habs1 : |(-0.01 : ℝ)| ≤ π / 12 := by
    rw [abs_of_nonpos (by norm_num : (-0.01 : ℝ) ≤ 0)]
    linarith
  have habs2 : |(0.01 : ℝ)| ≤ π / 12 := by
    rw [abs_of_nonneg (by norm_num : (0 : ℝ) ≤ 0.01)]
    linarith
  have hs1 := const_screen_eval (-0.01) habs1
  have hs2 := const_screen_eval 0.01 habs2
  unfold constellationVertexPositionZ
  rw [if_neg (by norm_num)]
  dsimp only
  rw [hs1, hs2]
  rw [if_neg (by norm_num)]
  have htanpos : 0 < Real.tan (π / 6 * 0.5) := by
    rw [show (π / 6 * 0.5 : ℝ) = π / 12 by ring]
    exact Real.tan_pos_of_pos_of_lt_pi_div_two (by linarith) (by linarith)
  have htanle : Real.tan (π / 6 * 0.5) < 1 := by
    rw [show (π / 6 * 0.5 : ℝ) = π / 12 by ring]
    rw [← Real.tan_pi_div_four]
    exact Real.tan_lt_tan_of_nonneg_of_lt_pi_div_two (by linarith)
      (by linarith) (by linarith)
  have htan001 : (0.01 : ℝ) < Real.tan 0.01 :=
    Real.lt_tan (by norm_num) (by linarith)
  have hcos001 : 0 < Real.cos (0.01 : ℝ) :=
    Real.cos_pos_of_mem_Ioo ⟨by linarith, by linarith⟩
  have htaneq : Real.sin (0.01 : ℝ) / Real.cos 0.01 = Real.tan 0.01 :=
    (Real.tan_eq_sin_div_cos 0.01).symm
  have hd : Real.sin (0.01 : ℝ) / Real.cos 0.01 * (1 / Real.tan (π / 6 * 0.5))
      - Real.sin (-0.01 : ℝ) / Real.cos (-0.01) * (1 / Real.tan (π / 6 * 0.5))
      = 2 * (Real.tan 0.01 / Real.tan (π / 6 * 0.5)) := by
    rw [Real.sin_neg, Real.cos_neg, neg_div, htaneq]
    ring
  have hdpos : (0.02 : ℝ) < 2 * (Real.tan 0.01 / Real.tan (π / 6 * 0.5)) := by
    have h1 : (1 : ℝ) < Real.tan 0.01 / Real.tan (π / 6 * 0.5) * 100 := by
      rw [div_mul_eq_mul_div, lt_div_iff htanpos]
      nlinarith
    nlinarith [div_nonneg (le_of_lt (lt_trans (by norm_num) htan001)) htanpos.le]
  rw [if_neg]
  push_neg
  rw [show ((0:ℝ) - 0) ^ 2 = 0 by ring]
  rw [zero_add, hd]
  rw [Real.sqrt_sq (by linarith)]
  linarith

/-- C3 amended: the constellation shader drops a segment whole (clip
z = -2, no quad) when BOTH endpoints are below altitude -0.05 radians,
and when EITHER projected endpoint is culled by the view-frustum test of
horizontalToScreen (behind the camera or beyond the cull radius); a
segment with only one endpoint slightly below the horizon but inside the
frustum is still drawn (faded near the horizon). -/
theorem c3_segment_drop_amended :
    (∀ (u : ConstUniforms) (az1 alt1 az2 alt2 : ℝ),
      alt1 < -0.05 → alt2 < -0.05 →
      constellationVertexPositionZ u az1 alt1 az2 alt2 = -2) ∧
    (∀ (u : ConstUniforms) (az1 alt1 az2 alt2 : ℝ),
      (horizontalToScreenConst az1 alt1 u.azimuth u.altitude u.fov u.aspect
        u.minFov u.maxFov u.maxCameraOffset).z < 0 ∨
      (horizontalToScreenConst az2 alt2 u.azimuth u.altitude u.fov u.aspect
        u.minFov u.maxFov u.maxCameraOffset).z < 0 →
      constellationVertexPositionZ u az1 alt1 az2 alt2 = -2) := by
  constructor
  · intro u az1 alt1 az2 alt2 h1 h2
    unfold constellationVertexPositionZ
    rw [if_pos ⟨h1, h2⟩]
  · intro u az1 alt1 az2 alt2 h
    unfold constellationVertexPositionZ
    by_cases hb : alt1 < -0.05 ∧ alt2 < -0.05
    · rw [if_pos hb]
    · rw [if_neg hb]
      dsimp only
      rw [if_pos h]

/-- C3 amended witness: a segment with both endpoints one radian below
the horizon is dropped whole. -/
theorem c3_segment_drop_amended_witness :
    ((-1 : ℝ) < -0.05) ∧
    constellationVertexPositionZ
      ⟨0, 0, π / 6, 1, 0, 0, 0.002, 0.6, π / 6, π * 2 / 3, 1⟩
      0 (-1) 0.2 (-1) = -2 :=
  ⟨by norm_num,
   c3_segment_drop_amended.1 _ 0 (-1) 0.2 (-1) (by norm_num) (by norm_num)⟩

theorem jsRem_360_bounds (x : ℝ) : -360 < jsRem x 360 ∧ jsRem x 360 < 360 := by
  unfold jsRem jsTrunc
  by_cases h : 0 ≤ x / 360
  · rw [if_pos h]
    have h1 := Int.fract_nonneg (x / 360)
    have h2 := Int.fract_lt_one (x / 360)
    unfold Int.fract at h1 h2
    constructor <;> nlinarith
  · rw [if_neg h]
    rw [show Int.ceil (x / 360) = -Int.floor (-(x / 360)) by
      rw [Int.floor_neg]; ring]
    have h1 := Int.fract_nonneg (-(x / 360))
    have h2 := Int.fract_lt_one (-(x / 360))
    unfold Int.fract at h1 h2
    push_cast
    constructor <;> nlinarith

theorem jsRound_sector_bounds (d : ℝ) (h0 : 0 ≤ d) (h1 : d < 360) :
    0 ≤ jsRound (d / 22.5) ∧ jsRound (d / 22.5) ≤ 16 := by
  unfold jsRound
  have hd0 : (0 : ℝ) ≤ d / 22.5 := by positivity
  have hd16 : d / 22.5 < 16 := by
    rw [div_lt_iff (by norm_num : (0 : ℝ) < 22.5)]
    nlinarith
  constructor
  · apply Int.le_floor.mpr
    push_cast
    linarith
  · have h17 : d / 22.5 + 1 / 2 < 17 := by linarith
    have hfl : ⌊d / 22.5 + 1 / 2⌋ < (17 : ℤ) :=
      Int.floor_lt.mpr (by exact_mod_cast h17)
    omega

theorem directionIndex_bounds (azimuth : ℝ) :
    0 ≤ directionIndex azimuth ∧ directionIndex azimuth < 16 := by
  unfold directionIndex
  have hb := jsRem_360_bounds (azimuth * 180 / π)
  dsimp only
  set deg0 := jsRem (azimuth * 180 / π) 360 with hdeg0
  have hdeg : 0 ≤ (if deg0 < 0 then deg0 + 360 else deg0) ∧
      (if deg0 < 0 then deg0 + 360 else deg0) < 360 := by
    by_cases h : deg0 < 0
    · rw [if_pos h]
      exact ⟨by linarith [hb.1], by linarith⟩
    · rw [if_neg h]
      exact ⟨by linarith, hb.2⟩
  have hr := jsRound_sector_bounds _ hdeg.1 hdeg.2
  have htm := Int.tmod_eq_emod hr.1 (by norm_num : (0 : ℤ) ≤ 16)
  rw [htm]
  exact ⟨Int.emod_nonneg _ (by norm_num), Int.emod_lt_of_pos _ (by norm_num)⟩

theorem getDirectionName_mem (azimuth : ℝ) :
    getDirectionName azimuth ∈ DIRECTION_NAMES := by
  have hb := directionIndex_bounds azimuth
  unfold getDirectionName
  have hlt : (directionIndex azimuth).toNat < DIRECTION_NAMES.length := by
    have : (directionIndex azimuth).toNat < 16 := by omega
    simpa [DIRECTION_NAMES] using this
  rw [List.getD_eq_getElem DIRECTION_NAMES _ hlt]
  exact List.getElem_mem hlt

theorem arctan_le_self_of_nonneg {t : ℝ} (h : 0 ≤ t) : Real.arctan t ≤ t := by
  rcases eq_or_lt_of_le h with h0 | h0
  · rw [← h0, Real.arctan_zero]
  · have hpos : 0 < Real.arctan t := by
      rw [← Real.arctan_zero]
      exact Real.arctan_strictMono h0
    have := Real.lt_tan hpos (Real.arctan_lt_pi_div_two t)
    rw [Real.tan_arctan] at this
    linarith

/-- For the observer at latitude 0 and a star at declination pi/4, right
ascension 0, with local sidereal time s in (0, 1), the computed azimuth is
-arctan(sin s) normalized by the shader's two-pi literal. -/
theorem equatorial_az_eval (s : ℝ) (h1 : 0 < s) (h2 : s < 1) :
    (equatorialToHorizontal 0 (π / 4) 0 s).az
      = -Real.arctan (Real.sin s) + 2 * 3.14159265359 := by
  have hpil : (3.14 : ℝ) < π := by
    have := Real.pi_gt_3141592
    linarith
  have hsq2 : Real.sqrt 2 ^ 2 = 2 := Real.sq_sqrt (by norm_num)
  have hsq2nn : (0 : ℝ) ≤ Real.sqrt 2 := Real.sqrt_nonneg 2
  have hsq2pos : 0 < Real.sqrt 2 := by nlinarith
  have hcoss : 0 < Real.cos s :=
    Real.cos_pos_of_mem_Ioo ⟨by linarith, by linarith⟩
  have hcoss1 : Real.cos s ≤ 1 := Real.cos_le_one s
  unfold equatorialToHorizontal atan2
  dsimp only
  rw [sub_zero]
  simp only [Real.sin_zero, Real.cos_zero, mul_zero, zero_add, mul_one,
    zero_mul, sub_zero, Real.sin_pi_div_four, Real.cos_pi_div_four, one_mul]
  have hq0 : 0 < Real.sqrt 2 / 2 * Real.cos s := by positivity
  have hq1 : Real.sqrt 2 / 2 * Real.cos s ≤ 1 := by nlinarith
  have hclampq : wgslClamp (Real.sqrt 2 / 2 * Real.cos s) (-1) 1
      = Real.sqrt 2 / 2 * Real.cos s := by
    unfold wgslClamp
    rw [max_eq_left (by linarith), min_eq_left hq1]
  rw [hclampq]
  rw [if_neg (by
    push_neg
    exact Real.arcsin_nonneg.mpr hq0.le)]
  rw [if_neg (by
    push_neg
    rw [Real.cos_arcsin, abs_of_nonneg (Real.sqrt_nonneg _)]
    have hexp : (Real.sqrt 2 / 2 * Real.cos s) ^ 2
        = Real.cos s ^ 2 * (Real.sqrt 2 ^ 2) / 4 := by ring
    rw [hsq2] at hexp
    have hqsq : (Real.sqrt 2 / 2 * Real.cos s) ^ 2 ≤ 1 / 2 := by
      rw [hexp]
      nlinarith
    have hge : (1 : ℝ) / 2 ≤ 1 - (Real.sqrt 2 / 2 * Real.cos s) ^ 2 := by linarith
    nlinarith [Real.sq_sqrt (by linarith :
        (0 : ℝ) ≤ 1 - (Real.sqrt 2 / 2 * Real.cos s) ^ 2),
      Real.sqrt_nonneg (1 - (Real.sqrt 2 / 2 * Real.cos s) ^ 2)])]
  have hsins : 0 < Real.sin s :=
    Real.sin_pos_of_pos_of_lt_pi h1 (by linarith)
  have hrad : 0 < Real.sqrt (1 + Real.sin s ^ 2) := by positivity
  have habs : Complex.abs ⟨Real.sqrt 2 / 2, -(Real.sin s) * (Real.sqrt 2 / 2)⟩
      = Real.sqrt 2 / 2 * Real.sqrt (1 + Real.sin s ^ 2) := by
    rw [Complex.abs_apply, Complex.normSq_mk]
    rw [show Real.sqrt 2 / 2 * (Real.sqrt 2 / 2) +
        -(Real.sin s) * (Real.sqrt 2 / 2) * (-(Real.sin s) * (Real.sqrt 2 / 2))
        = (Real.sqrt 2 / 2) ^ 2 * (1 + Real.sin s ^ 2) by ring]
    rw [Real.sqrt_mul (sq_nonneg _), Real.sqrt_sq (by positivity)]
  have harg : Complex.arg ⟨Real.sqrt 2 / 2, -(Real.sin s) * (Real.sqrt 2 / 2)⟩
      = -Real.arctan (Real.sin s) := by
    rw [Complex.arg_of_re_nonneg (by positivity)]
    show Real.arcsin (-(Real.sin s) * (Real.sqrt 2 / 2) / _) = _
    rw [habs]
    rw [show -(Real.sin s) * (Real.sqrt 2 / 2) /
        (Real.sqrt 2 / 2 * Real.sqrt (1 + Real.sin s ^ 2))
        = -(Real.sin s / Real.sqrt (1 + Real.sin s ^ 2)) by
      field_simp
      ring]
    rw [Real.arcsin_neg, ← Real.arctan_eq_arcsin]
  rw [harg]
  have hneg : -Real.arctan (Real.sin s) < 0 := by
    rw [neg_lt, neg_zero, ← Real.arctan_zero]
    exact Real.arctan_strictMono hsins
  rw [if_pos hneg]

/-- C6 counterexample: the WGSL normalization constant 2 * 3.14159265359
is strictly greater than 2 * pi, so a star whose raw atan2 azimuth is a
tiny negative number is normalized to a value at or above 2 * pi: for the
observer at latitude 0, a star at declination pi/4, right ascension 0 and
local sidereal time 1e-13, the returned azimuth is outside [0, 2 * pi). -/
theorem c6_azimuth_range_counterexample :
    2 * π ≤ (equatorialToHorizontal 0 (π / 4) 0 1e-13).az := by
  rw [equatorial_az_eval 1e-13 (by norm_num) (by norm_num)]
  have hpiu : π < 3.14159265358979323847 := Real.pi_lt_d20
  have hs0 : (0 : ℝ) < 1e-13 := by norm_num
  have hsin1 : Real.sin 1e-13 ≤ 1e-13 := Real.sin_le hs0.le
  have hsinpos : 0 < Real.sin (1e-13 : ℝ) := by
    apply Real.sin_pos_of_pos_of_lt_pi hs0
    have := Real.pi_gt_3141592
    linarith
  have harc : Real.arctan (Real.sin (1e-13 : ℝ)) ≤ 1e-13 :=
    le_trans (arctan_le_self_of_nonneg hsinpos.le) hsin1
  have harc0 : 0 ≤ Real.arctan (Real.sin (1e-13 : ℝ)) := by
    rw [← Real.arctan_zero]
    exact (Real.arctan_strictMono hsinpos).le
  nlinarith

/-- C6 amended: the equatorial-to-horizontal conversion of the shader
always returns an azimuth in [0, 2 * 3.14159265359); that upper bound is
the shader's two-pi literal, which exceeds the real 2 * pi by less than
5e-13 (so azimuths in [2 * pi, 6.28318530718) are reachable, see the
counterexample).  getDirectionName's table index is always in [0, 16),
so it never reads outside the fixed 16-entry label table for any real
azimuth. -/
theorem c6_azimuth_direction_amended :
    (∀ ra dec lat lst : ℝ,
      0 ≤ (equatorialToHorizontal ra dec lat lst).az ∧
      (equatorialToHorizontal ra dec lat lst).az < 2 * 3.14159265359) ∧
    (∀ azimuth : ℝ,
      (0 ≤ directionIndex azimuth ∧ directionIndex azimuth < 16) ∧
      getDirectionName azimuth ∈ DIRECTION_NAMES) := by
  constructor
  · intro ra dec lat lst
    have hpil : (3.14 : ℝ) < π := by
      have := Real.pi_gt_3141592
      linarith
    have hpiu : π < 3.15 := by
      have := Real.pi_lt_3141593
      linarith
    unfold equatorialToHorizontal atan2
    dsimp only
    split_ifs with h1 h2 h3
    · dsimp only
      norm_num
    · dsimp only
      norm_num
    · dsimp only
      have hlo := Complex.neg_pi_lt_arg
        (⟨Real.cos lat * Real.sin dec -
          Real.sin lat * Real.cos dec * Real.cos (lst - ra),
          -Real.sin (lst - ra) * Real.cos dec⟩ : ℂ)
      constructor <;> nlinarith [h3]
    · dsimp only
      have hhi := Complex.arg_le_pi
        (⟨Real.cos lat * Real.sin dec -
          Real.sin lat * Real.cos dec * Real.cos (lst - ra),
          -Real.sin (lst - ra) * Real.cos dec⟩ : ℂ)
      push_neg at h3
      constructor <;> nlinarith
  · intro azimuth
    exact ⟨directionIndex_bounds azimuth, getDirectionName_mem azimuth⟩

/-- The double JavaScript remainder normalization shifts its input by an
integer multiple of 360. -/
theorem norm360_shift (x : ℝ) : ∃ m : ℤ,
    jsRem (jsRem x 360 + 360) 360 = x - 360 * (m : ℝ) := by
  refine ⟨jsTrunc (x / 360) + jsTrunc ((jsRem x 360 + 360) / 360) - 1, ?_⟩
  unfold jsRem
  push_cast
  ring

/-- Advancing by one sidereal day moves the raw GMST by exactly 360
degrees plus the (tiny) contribution of the quadratic term. -/
theorem gmstRaw_diff (t : ℝ) :
    gmstRawDeg (t + siderealDayMs) - gmstRawDeg t
      = 360 + 0.000387933 * (360 / 360.98564736629) *
        (2 * (t / 86400000 + 2440587.5 - 2451545) + 360 / 360.98564736629)
        / 36525 ^ 2 := by
  unfold gmstRawDeg siderealDayMs
  dsimp only
  have hb : (360.98564736629 : ℝ) ≠ 0 := by norm_num
  field_simp
  ring

/-- C7: local sidereal time is periodic with the sidereal day, modulo
2 * pi, up to 1e-5 radians, for every valid JavaScript Date instant
(|t| <= 8.64e15 ms) and every longitude.  The residual comes only from
the quadratic GMST term, and is about 1e-6 radians at the extreme ends
of the Date range. -/
theorem c7_lst_periodicity (tMs lon : ℝ) (h : |tMs| ≤ 8.64e15) :
    ∃ k : ℤ,
      |calculateLocalSiderealTime (tMs + siderealDayMs) lon -
        calculateLocalSiderealTime tMs lon - 2 * π * (k : ℝ)| ≤ 1e-5 := by
  have hpiu : π < 3.15 := by
    have := Real.pi_lt_3141593
    linarith
  have hpil : 0 < π := Real.pi_pos
  have habs := abs_le.mp h
  obtain ⟨m0, hm0⟩ := norm360_shift (gmstRawDeg tMs)
  obtain ⟨m1, hm1⟩ := norm360_shift (gmstRawDeg (tMs + siderealDayMs))
  refine ⟨1 - (m1 - m0), ?_⟩
  unfold calculateLocalSiderealTime
  rw [hm0, hm1]
  have hA : (gmstRawDeg (tMs + siderealDayMs) - 360 * (m1 : ℝ) + lon) * π / 180
      - (gmstRawDeg tMs - 360 * (m0 : ℝ) + lon) * π / 180
      - 2 * π * ((1 - (m1 - m0) : ℤ) : ℝ)
      = (gmstRawDeg (tMs + siderealDayMs) - gmstRawDeg tMs - 360) * (π / 180) := by
    push_cast
    ring
  rw [hA, gmstRaw_diff tMs, add_sub_cancel_left]
  have hD0 : (0 : ℝ) < 360 / 360.98564736629 := by norm_num
  have hD1 : (360 : ℝ) / 360.98564736629 < 1 := by
    rw [div_lt_one (by norm_num)]
    norm_num
  have hnum : |2 * (tMs / 86400000 + 2440587.5 - 2451545)
      + 360 / 360.98564736629| ≤ 2.21e8 := by
    rw [abs_le]
    constructor <;> nlinarith
  have hDnum : |360 / 360.98564736629 *
      (2 * (tMs / 86400000 + 2440587.5 - 2451545) + 360 / 360.98564736629)|
      ≤ 2.21e8 := by
    rw [abs_mul]
    calc |(360 : ℝ) / 360.98564736629| *
        |2 * (tMs / 86400000 + 2440587.5 - 2451545) + 360 / 360.98564736629|
        ≤ 1 * 2.21e8 := by
          apply mul_le_mul _ hnum (abs_nonneg _) (by norm_num)
          rw [abs_of_pos hD0]
          linarith
      _ = 2.21e8 := by norm_num
  have hform : (0.000387933 : ℝ) * (360 / 360.98564736629) *
      (2 * (tMs / 86400000 + 2440587.5 - 2451545) + 360 / 360.98564736629)
      / 36525 ^ 2 * (π / 180)
      = (360 / 360.98564736629 *
        (2 * (tMs / 86400000 + 2440587.5 - 2451545) + 360 / 360.98564736629))
        * (0.000387933 * π / (36525 ^ 2 * 180)) := by
    ring
  rw [hform, abs_mul]
  have hscale : |(0.000387933 : ℝ) * π / (36525 ^ 2 * 180)|
      ≤ 0.000387933 * 3.15 / (36525 ^ 2 * 180) := by
    rw [abs_of_pos (by positivity)]
    gcongr
  calc |360 / 360.98564736629 *
        (2 * (tMs / 86400000 + 2440587.5 - 2451545) + 360 / 360.98564736629)|
      * |(0.000387933 : ℝ) * π / (36525 ^ 2 * 180)|
      ≤ 2.21e8 * (0.000387933 * 3.15 / (36525 ^ 2 * 180)) := by
        apply mul_le_mul hDnum hscale (abs_nonneg _) (by norm_num)
    _ ≤ 1e-5 := by norm_num

/-- C7 witness at the epoch instant and longitude of Tokyo. -/
theorem c7_lst_periodicity_witness :
    |(0 : ℝ)| ≤ 8.64e15 ∧
    ∃ k : ℤ,
      |calculateLocalSiderealTime (0 + siderealDayMs) 139.6917 -
        calculateLocalSiderealTime 0 139.6917 - 2 * π * (k : ℝ)| ≤ 1e-5 :=
  ⟨by norm_num, c7_lst_periodicity 0 139.6917 (by norm_num)⟩

/-- C9: when fetching the constellation binary fails, loadConstellationData
returns normally (no exception propagates), has warned, and has set the
line count to zero; a subsequent frame still records the star pass and
skips the constellation pass. -/
theorem c9_constellation_failure_nonfatal (metaLineCount : Nat) (err : String)
    (showConstellations : Bool) (loadedStarCount : Nat)
    (hstars : 0 < loadedStarCount) :
    ∃ res : ConstLoadResult,
      loadConstellationData metaLineCount (Except.error err) = Except.ok res ∧
      res.warned = true ∧
      res.constellationLineCount = 0 ∧
      RenderPass.star ∈ renderPasses showConstellations
        res.constellationLineCount loadedStarCount ∧
      RenderPass.constellation ∉ renderPasses showConstellations
        res.constellationLineCount loadedStarCount := by
  refine ⟨⟨0, true, none⟩, rfl, rfl, rfl, ?_, ?_⟩
  · unfold renderPasses
    rw [if_neg (by omega)]
    simp
  · unfold renderPasses
    rw [if_neg (by omega)]
    simp

/-- C9 witness: a failed fetch with a 5-line metadata count, constellation
display enabled, one star loaded. -/
theorem c9_constellation_failure_nonfatal_witness :
    0 < 1 ∧
    ∃ res : ConstLoadResult,
      loadConstellationData 5 (Except.error "fetch failed") = Except.ok res ∧
      res.warned = true ∧
      res.constellationLineCount = 0 ∧
      RenderPass.star ∈ renderPasses true res.constellationLineCount 1 ∧
      RenderPass.constellation ∉ renderPasses true res.constellationLineCount 1 :=
  ⟨by norm_num, c9_constellation_failure_nonfatal 5 "fetch failed" true 1 (by norm_num)⟩

theorem hash11Normalized_bounds (p : ℝ) :
    0 ≤ hash11Normalized p ∧ hash11Normalized p < 1 := by
  unfold hash11Normalized fract
  dsimp only
  have h1 : 0 ≤ Int.fract (Real.sin (p * 127.1) * 43758.5453) :=
    Int.fract_nonneg _
  have h2 : Int.fract (Real.sin (p * 127.1) * 43758.5453) < 1 :=
    Int.fract_lt_one _
  unfold Int.fract at h1 h2
  rw [if_neg (by push_neg; exact h1)]
  exact ⟨h1, h2⟩

theorem noise1d_bounds (x : ℝ) : 0 ≤ noise1d x ∧ noise1d x < 1 := by
  unfold noise1d
  dsimp only
  have hf1 : 0 ≤ fract x := by
    unfold fract
    exact Int.fract_nonneg x
  have hf2 : fract x < 1 := by
    unfold fract
    exact Int.fract_lt_one x
  have hu1 : 0 ≤ fract x * fract x * (3 - 2 * fract x) := by nlinarith
  have hkey : 0 ≤ (1 - fract x) ^ 2 * (1 + 2 * fract x) :=
    mul_nonneg (sq_nonneg _) (by linarith)
  have hu2 : fract x * fract x * (3 - 2 * fract x) ≤ 1 := by nlinarith [hkey]
  have ha := hash11Normalized_bounds (⌊x⌋ : ℝ)
  have hb := hash11Normalized_bounds ((⌊x⌋ : ℝ) + 1)
  constructor
  · nlinarith [ha.1, hb.1, hu1, hu2]
  · rcases lt_or_eq_of_le hu2 with hu | hu
    · nlinarith [ha.2, hb.2, ha.1, hb.1]
    · rw [hu]
      nlinarith [hb.2, ha.1]

theorem getBuildingHeight_bounds (azimuth : ℝ) (params : LayerParams)
    (h1 : 0 < params.heightScale) (h2 : params.heightScale ≤ 1) :
    0 ≤ getBuildingHeight azimuth params ∧
    getBuildingHeight azimuth params < 6 ∧
    (getBuildingHeight azimuth params = 0 ∨
      ∃ k : ℕ, getBuildingHeight azimuth params
        = params.heightScale * ((k : ℝ) * FLOOR_QUANTIZE_DEG)) := by
  unfold getBuildingHeight
  dsimp only
  set n := skylineBuildingIdx azimuth params with hn
  have hcn := noise1d_bounds ((n : ℝ) * 0.08)
  have hhf := hash11Normalized_bounds ((n : ℝ) * 31.7)
  by_cases hex : hash11Normalized ((n : ℝ) * 73.9 + 0.3) >
      params.probability + noise1d ((n : ℝ) * 0.08) * 0.25
  · rw [if_pos hex]
    norm_num
  · rw [if_neg hex]
    set raw := noise1d ((n : ℝ) * 0.08) * 0.5 +
      hash11Normalized ((n : ℝ) * 31.7) * 0.5 with hraw
    have hraw0 : 0 ≤ raw := by rw [hraw]; nlinarith [hcn.1, hhf.1]
    have hraw1 : raw < 1 := by rw [hraw]; nlinarith [hcn.2, hhf.2]
    set hd := BASE_HEIGHT_DEG + raw * HEIGHT_AMPLITUDE_DEG with hhd
    have hhd1 : 1 ≤ hd := by
      rw [hhd]; unfold BASE_HEIGHT_DEG HEIGHT_AMPLITUDE_DEG; nlinarith
    have hhd6 : hd < 6 := by
      rw [hhd]; unfold BASE_HEIGHT_DEG HEIGHT_AMPLITUDE_DEG; nlinarith
    have hfl0 : (0 : ℤ) ≤ ⌊hd / FLOOR_QUANTIZE_DEG⌋ := by
      apply Int.le_floor.mpr
      unfold FLOOR_QUANTIZE_DEG
      push_cast
      positivity
    have h04 : (0 : ℝ) < FLOOR_QUANTIZE_DEG := by
      unfold FLOOR_QUANTIZE_DEG
      norm_num
    have hcast0 : (0 : ℝ) ≤ (⌊hd / FLOOR_QUANTIZE_DEG⌋ : ℝ) := by
      exact_mod_cast hfl0
    have hq0 : 0 ≤ (⌊hd / FLOOR_QUANTIZE_DEG⌋ : ℝ) * FLOOR_QUANTIZE_DEG :=
      mul_nonneg hcast0 h04.le
    have hq6 : (⌊hd / FLOOR_QUANTIZE_DEG⌋ : ℝ) * FLOOR_QUANTIZE_DEG < 6 := by
      have hfl := Int.floor_le (hd / FLOOR_QUANTIZE_DEG)
      have hle : (⌊hd / FLOOR_QUANTIZE_DEG⌋ : ℝ) * FLOOR_QUANTIZE_DEG
          ≤ hd / FLOOR_QUANTIZE_DEG * FLOOR_QUANTIZE_DEG :=
        mul_le_mul_of_nonneg_right hfl h04.le
      rw [div_mul_cancel₀ hd (ne_of_gt h04)] at hle
      linarith
    refine ⟨by nlinarith, by nlinarith, Or.inr ⟨⌊hd / FLOOR_QUANTIZE_DEG⌋.toNat, ?_⟩⟩
    have hcast : ((⌊hd / FLOOR_QUANTIZE_DEG⌋.toNat : ℕ) : ℝ)
        = ((⌊hd / FLOOR_QUANTIZE_DEG⌋ : ℤ) : ℝ) := by
      exact_mod_cast Int.toNat_of_nonneg hfl0
    rw [hcast]
    ring

theorem skyline_texel_eval (params : LayerParams) (i : ℕ)
    (hi : i < SKYLINE_TEXTURE_WIDTH) :
    ((List.range SKYLINE_TEXTURE_WIDTH).map fun (j : ℕ) =>
      getBuildingHeight ((j : ℝ) / (SKYLINE_TEXTURE_WIDTH : ℝ) * TWO_PI) params).getD i 0
      = getBuildingHeight ((i : ℝ) / (SKYLINE_TEXTURE_WIDTH : ℝ) * TWO_PI) params := by
  rw [List.getD_eq_getElem?_getD, List.getElem?_map, List.getElem?_range hi]
  rfl

/-- C10: every texel of every skyline layer is bounded: nonnegative,
exactly zero for a layer index outside 0..2 and in the no-building branch,
strictly below BASE_HEIGHT_DEG + HEIGHT_AMPLITUDE_DEG = 6 degrees, and
every nonzero value is the generated layer's OWN heightScale (the entry
of LAYER_PARAMS at that layer index) times a natural multiple of the
0.4-degree floor-quantization step. -/
theorem c10_skyline_height_bounds (layer i : ℕ) (hi : i < 2048) :
    0 ≤ (generateSkylineData layer).getD i 0 ∧
    (generateSkylineData layer).getD i 0 < 6 ∧
    (3 ≤ layer → (generateSkylineData layer).getD i 0 = 0) ∧
    (∀ az : ℝ, ∀ p : LayerParams,
      hash11Normalized ((skylineBuildingIdx az p : ℝ) * 73.9 + 0.3) >
        p.probability + noise1d ((skylineBuildingIdx az p : ℝ) * 0.08) * 0.25 →
      getBuildingHeight az p = 0) ∧
    ((generateSkylineData layer).getD i 0 ≠ 0 →
      ∃ p : LayerParams, LAYER_PARAMS.get? layer = some p ∧ ∃ k : ℕ,
        (generateSkylineData layer).getD i 0
          = p.heightScale * ((k : ℝ) * FLOOR_QUANTIZE_DEG)) := by
  have habsent : ∀ az : ℝ, ∀ p : LayerParams,
      hash11Normalized ((skylineBuildingIdx az p : ℝ) * 73.9 + 0.3) >
        p.probability + noise1d ((skylineBuildingIdx az p : ℝ) * 0.08) * 0.25 →
      getBuildingHeight az p = 0 := by
    intro az p h
    unfold getBuildingHeight
    dsimp only
    rw [if_pos h]
  have hiw : i < SKYLINE_TEXTURE_WIDTH := hi
  cases hg : LAYER_PARAMS.get? layer with
  | none =>
    have hz : generateSkylineData layer = List.replicate SKYLINE_TEXTURE_WIDTH 0 := by
      unfold generateSkylineData
      rw [hg]
    have hgd : (generateSkylineData layer).getD i 0 = 0 := by
      rw [hz, List.getD_eq_getElem?_getD, List.getElem?_replicate,
        if_pos hiw]
      rfl
    rw [hgd]
    exact ⟨le_refl 0, by norm_num, fun _ => rfl, habsent,
      fun hne => absurd rfl hne⟩
  | some params =>
    have hmem : params ∈ LAYER_PARAMS := List.get?_mem hg
    have hsc : 0 < params.heightScale ∧ params.heightScale ≤ 1 := by
      have hm := hmem
      unfold LAYER_PARAMS at hm
      simp only [List.mem_cons, List.not_mem_nil, or_false] at hm
      rcases hm with h | h | h <;> rw [h] <;> norm_num
    have heq : (generateSkylineData layer).getD i 0
        = getBuildingHeight ((i : ℝ) / (SKYLINE_TEXTURE_WIDTH : ℝ) * TWO_PI)
            params := by
      unfold generateSkylineData
      rw [hg]
      exact skyline_texel_eval params i hiw
    rw [heq]
    obtain ⟨hb0, hb6, hbq⟩ := getBuildingHeight_bounds
      ((i : ℝ) / (SKYLINE_TEXTURE_WIDTH : ℝ) * TWO_PI) params hsc.1 hsc.2
    refine ⟨hb0, hb6, ?_, habsent, ?_⟩
    · intro h3
      have hlt : layer < LAYER_PARAMS.length := (List.get?_eq_some.mp hg).1
      have hlen : LAYER_PARAMS.length = 3 := by
        unfold LAYER_PARAMS
        rfl
      omega
    · intro hne
      rcases hbq with h0 | ⟨k, hk⟩
      · exact absurd h0 hne
      · exact ⟨params, rfl, k, hk⟩

/-- C10 witness: first texel of the far layer. -/
theorem c10_skyline_height_bounds_witness :
    (0 : ℕ) < 2048 ∧
    (0 ≤ (generateSkylineData 0).getD 0 0 ∧
     (generateSkylineData 0).getD 0 0 < 6 ∧
     (3 ≤ 0 → (generateSkylineData 0).getD 0 0 = 0) ∧
     (∀ az : ℝ, ∀ p : LayerParams,
       hash11Normalized ((skylineBuildingIdx az p : ℝ) * 73.9 + 0.3) >
         p.probability + noise1d ((skylineBuildingIdx az p : ℝ) * 0.08) * 0.25 →
       getBuildingHeight az p = 0) ∧
     ((generateSkylineData 0).getD 0 0 ≠ 0 →
       ∃ p : LayerParams, LAYER_PARAMS.get? 0 = some p ∧ ∃ k : ℕ,
         (generateSkylineData 0).getD 0 0
           = p.heightScale * ((k : ℝ) * FLOOR_QUANTIZE_DEG))) :=
  ⟨by norm_num, c10_skyline_height_bounds 0 0 (by norm_num)⟩

end Stars
